import Mathlib

/-!
Verification of the seat-allocation and subscription-broadcast core of the
EventBookingSystem repository.

The embedding below follows the source:
  apps/server/drizzle/0001_stored_procedures.sql  (create_booking, cancel_booking)
  apps/server/src/services/booking.ts             (BookingService)
  apps/server/src/services/event.ts               (EventService.createEvent, getEventById)
  apps/server/src/services/websocket.ts           (WebSocketManager)
  apps/server/src/db/schema.ts and the migrations (tables and constraints; the
  final migration replaces the full unique constraint on (user_id, event_id)
  with a partial unique index restricted to status = confirmed).

Timestamps are modelled as integers, database tables as lists of rows.
-/

namespace EBS

/-- Booking status column: the default is confirmed; cancel sets cancelled. -/
inductive BStatus
  | confirmed
  | cancelled
deriving DecidableEq, Repr

/-- One row of the bookings table (columns relevant to the allocator). -/
structure BookingRow where
  bookingId : String
  userId : Nat
  eventId : Nat
  status : BStatus
deriving DecidableEq, Repr

/-- One row of the events table (columns relevant to the allocator). -/
structure EventRow where
  id : Nat
  eventDate : Int
  seatCapacity : Int
  availableSeats : Int
deriving DecidableEq, Repr

/-- One row of the booking_logs audit table. -/
structure LogRow where
  bookingId : String
  action : String
  seatsRemaining : Option Int
deriving DecidableEq, Repr

/-- The database state seen by the stored procedures. -/
structure DBState where
  events : List EventRow
  bookings : List BookingRow
  logs : List LogRow
deriving DecidableEq, Repr

/-- Row lookup by primary key, as in EventService.getEventById. -/
def findEvent (s : DBState) (e : Nat) : Option EventRow :=
  s.events.find? (fun r => r.id == e)

/-- Predicate for a confirmed booking of event e, as used by the SQL filters. -/
def isConfirmedFor (e : Nat) (b : BookingRow) : Bool :=
  b.eventId == e && b.status == BStatus.confirmed

/-- Number of confirmed (Held) bookings for event e. -/
def confirmedCount (bks : List BookingRow) (e : Nat) : Nat :=
  (bks.filter (isConfirmedFor e)).length

/-- Predicate for a confirmed booking of user u for event e: the rows the
partial unique index bookings_user_event_confirmed_unique constrains. -/
def pairConfirmed (u e : Nat) (b : BookingRow) : Bool :=
  b.userId == u && b.eventId == e && b.status == BStatus.confirmed

/-- Number of confirmed bookings of a given (user, event) pair. -/
def pairConfirmedCount (bks : List BookingRow) (u e : Nat) : Nat :=
  (bks.filter (pairConfirmed u e)).length

/-- The at-most-one-Held-reservation-per-pair invariant. -/
def AtMostOnePerPair (s : DBState) : Prop :=
  ∀ u e, pairConfirmedCount s.bookings u e ≤ 1

/-- The existence check of the partial unique index
bookings_user_event_confirmed_unique (one confirmed booking per user and
event), also issued by BookingService.createBooking as a select. -/
def hasConfirmed (bks : List BookingRow) (u e : Nat) : Bool :=
  bks.any (pairConfirmed u e)

/-- The unique constraint on bookings.booking_id. -/
def bookingIdTaken (bks : List BookingRow) (bid : String) : Bool :=
  bks.any (fun b => b.bookingId == bid)

/-- Outcome of the create_booking stored procedure: TRUE, FALSE (seats
exhausted), or an aborted transaction raised by a constraint violation. -/
inductive ProcResult
  | ok
  | noSeats
  | uniqueViolation
  | fkViolation
deriving DecidableEq, Repr

/-- Decrement available_seats of the event row with the given id, as the
UPDATE statement of create_booking does. -/
def decSeat (e : Nat) (r : EventRow) : EventRow :=
  if r.id == e then { r with availableSeats := r.availableSeats - 1 } else r

/-- Increment available_seats of the event row with the given id, as the
UPDATE statement of cancel_booking does. -/
def incSeat (e : Nat) (r : EventRow) : EventRow :=
  if r.id == e then { r with availableSeats := r.availableSeats + 1 } else r

/-- Stored procedure create_booking(p_user_id, p_event_id, p_booking_id):
locks the event row, returns FALSE when available_seats is not positive,
otherwise inserts a confirmed booking, decrements available_seats and
appends an audit log row, all in one transaction.  A missing event row makes
the INSERT violate the foreign key and the transaction aborts; a booking_id
collision or a second confirmed booking for the same (user, event) pair
violates a unique constraint and the transaction aborts.  An aborted
transaction leaves the state unchanged. -/
def create_booking (s : DBState) (u e : Nat) (bid : String) : DBState × ProcResult :=
  match findEvent s e with
  | none => (s, ProcResult.fkViolation)
  | some ev =>
    if ev.availableSeats ≤ 0 then (s, ProcResult.noSeats)
    else if bookingIdTaken s.bookings bid || hasConfirmed s.bookings u e then
      (s, ProcResult.uniqueViolation)
    else
      ({ events := s.events.map (decSeat e),
         bookings := s.bookings ++ [⟨bid, u, e, BStatus.confirmed⟩],
         logs := s.logs ++ [⟨bid, "created", some (ev.availableSeats - 1)⟩] },
       ProcResult.ok)

/-- Set status to cancelled on every bookings row whose booking_id matches,
as the UPDATE statement of cancel_booking does. -/
def cancelRow (bid : String) (b : BookingRow) : BookingRow :=
  if b.bookingId == bid then { b with status := BStatus.cancelled } else b

/-- Stored procedure cancel_booking(p_booking_id): selects the confirmed
booking with that id joined to its event row (FOR UPDATE); returns FALSE
when not found; otherwise sets the booking cancelled, increments
available_seats of its event and appends an audit log row. -/
def cancel_booking (s : DBState) (bid : String) : DBState × Bool :=
  match s.bookings.find? (fun b => b.bookingId == bid && b.status == BStatus.confirmed) with
  | none => (s, false)
  | some b =>
    match findEvent s b.eventId with
    | none => (s, false)
    | some _ =>
      ({ events := s.events.map (incSeat b.eventId),
         bookings := s.bookings.map (cancelRow bid),
         logs := s.logs ++ [⟨bid, "cancelled", none⟩] },
       true)

/-- The errors thrown by BookingService (each distinct thrown message). -/
inductive BookingError
  | eventNotFound
  | eventInPast
  | seatsExhausted
  | duplicateReservation
  | creationFailed
  | retrieveFailed
  | bookingNotFound
  | notAuthorized
  | alreadyCancelled
  | eventOccurred
  | cancelFailed
  | dbError
deriving DecidableEq, Repr

/-- Result of BookingService.createBooking. -/
inductive CreateOutcome
  | created (bid : String)
  | failed (err : BookingError)
deriving DecidableEq, Repr

/-- Result of BookingService.cancelBooking. -/
inductive CancelOutcome
  | ok
  | failed (err : BookingError)
deriving DecidableEq, Repr

/-- BookingService.getBookingByBookingId: exact (case-sensitive) lookup of a
bookings row by its booking_id, left-joined to its event row. -/
def getBookingByBookingId (s : DBState) (bid : String) :
    Option (BookingRow × Option EventRow) :=
  (s.bookings.find? (fun b => b.bookingId == bid)).map
    (fun b => (b, findEvent s b.eventId))

/-- JavaScript toUpperCase on the ASCII strings booking ids consist of. -/
def jsToUpperCase (s : String) : String :=
  ⟨s.data.map Char.toUpper⟩

/-- BookingService.generateBookingId: BK-timestamp-random, uppercased. -/
def generateBookingId (timestamp randomPart : String) : String :=
  jsToUpperCase ("BK-" ++ timestamp ++ "-" ++ randomPart)

/-- BookingService.createBooking: validates in source order (event exists,
event strictly in the future, seats available, no existing confirmed booking
of this user for this event), then runs the stored procedure; a unique key
violation raised by the procedure is caught and reported as a duplicate
booking. -/
def createBooking (s : DBState) (now : Int) (userId eventId : Nat) (bid : String) :
    DBState × CreateOutcome :=
  match findEvent s eventId with
  | none => (s, CreateOutcome.failed BookingError.eventNotFound)
  | some ev =>
    if ev.eventDate ≤ now then (s, CreateOutcome.failed BookingError.eventInPast)
    else if ev.availableSeats ≤ 0 then (s, CreateOutcome.failed BookingError.seatsExhausted)
    else if hasConfirmed s.bookings userId eventId then
      (s, CreateOutcome.failed BookingError.duplicateReservation)
    else
      match create_booking s userId eventId bid with
      | (s', ProcResult.ok) =>
        match getBookingByBookingId s' bid with
        | some _ => (s', CreateOutcome.created bid)
        | none => (s', CreateOutcome.failed BookingError.retrieveFailed)
      | (s', ProcResult.noSeats) => (s', CreateOutcome.failed BookingError.creationFailed)
      | (s', ProcResult.uniqueViolation) =>
        (s', CreateOutcome.failed BookingError.duplicateReservation)
      | (s', ProcResult.fkViolation) => (s', CreateOutcome.failed BookingError.dbError)

/-- BookingService.cancelBooking: looks the booking up, checks ownership
(owner or admin role), checks the status is still confirmed, checks the
joined event has not yet occurred, then runs the stored procedure. -/
def cancelBooking (s : DBState) (now : Int) (bid : String) (userId : Nat)
    (userRole : String) : DBState × CancelOutcome :=
  match getBookingByBookingId s bid with
  | none => (s, CancelOutcome.failed BookingError.bookingNotFound)
  | some (b, evOpt) =>
    if userRole ≠ "admin" ∧ b.userId ≠ userId then
      (s, CancelOutcome.failed BookingError.notAuthorized)
    else if b.status ≠ BStatus.confirmed then
      (s, CancelOutcome.failed BookingError.alreadyCancelled)
    else if evOpt.isSome ∧ (evOpt.getD ⟨0, 0, 0, 0⟩).eventDate ≤ now then
      (s, CancelOutcome.failed BookingError.eventOccurred)
    else
      match cancel_booking s bid with
      | (s', true) => (s', CancelOutcome.ok)
      | (s', false) => (s', CancelOutcome.failed BookingError.cancelFailed)

/-- Result of EventService.createEvent. -/
inductive CreateEventOutcome
  | ok (ev : EventRow)
  | failed (err : String)
deriving DecidableEq, Repr

/-- EventService.createEvent: rejects an event date that is not strictly in
the future, otherwise inserts the event with availableSeats initialized to
seatCapacity (the serial primary key is modelled as the supplied newId). -/
def createEvent (s : DBState) (now : Int) (newId : Nat) (eventDate seatCapacity : Int) :
    DBState × CreateEventOutcome :=
  if eventDate ≤ now then
    (s, CreateEventOutcome.failed "Event date must be in the future")
  else
    let ev : EventRow := ⟨newId, eventDate, seatCapacity, seatCapacity⟩
    ({ s with events := s.events ++ [ev] }, CreateEventOutcome.ok ev)

/-- A reserve or release call against the stored procedures. -/
inductive AllocOp
  | reserve (u e : Nat) (bid : String)
  | release (bid : String)
deriving DecidableEq, Repr

/-- State reached after one stored-procedure call (failures roll back). -/
def applyAllocOp (s : DBState) : AllocOp → DBState
  | AllocOp.reserve u e bid => (create_booking s u e bid).1
  | AllocOp.release bid => (cancel_booking s bid).1

/-- State reached after a sequence of stored-procedure calls. -/
def applyAllocOps (s : DBState) (ops : List AllocOp) : DBState :=
  ops.foldl applyAllocOp s

/-- The allocator data-model invariant: event ids are unique, booking ids
are unique, and every event row has a nonnegative available_seats satisfying
the conservation equation against the confirmed bookings. -/
def DBInv (s : DBState) : Prop :=
  (s.events.map (fun r => r.id)).Nodup ∧
  (s.bookings.map (fun b => b.bookingId)).Nodup ∧
  ∀ ev ∈ s.events, 0 ≤ ev.availableSeats ∧
    ev.availableSeats + (confirmedCount s.bookings ev.id : Int) = ev.seatCapacity

instance : DecidablePred DBInv := fun s => by
  unfold DBInv; infer_instance

/-! ## The WebSocketManager (subscription broadcaster)

State: a map from client id to client record (connection handle, user id,
optional watched event id) and a map from event id to the set of client ids
watching it.  The connection handle is modelled by the one observable the
broadcaster uses: whether its send throws.  JavaScript truthiness of the
numeric eventId field matters in the source (an eventId of 0 is falsy), so
the embedding tests the watched event id against 0 exactly where the source
uses a truthiness test. -/

/-- A WebSocketClient record: user id, currently watched event (if any) and
the behaviour of the underlying connection handle's send. -/
structure WSClient where
  userId : Nat
  eventId : Option Nat
  sendFails : Bool
deriving DecidableEq, Repr

/-- The WebSocketManager registry: the clients map and the
eventSubscriptions map (event id to set of client ids). -/
structure WSState where
  clients : List (String × WSClient)
  eventSubscriptions : List (Nat × List String)
deriving DecidableEq, Repr

/-- JavaScript Map.get as an association-list lookup. -/
def mapGet {κ ν : Type} [BEq κ] (m : List (κ × ν)) (k : κ) : Option ν :=
  (m.find? (fun p => p.1 == k)).map (fun p => p.2)

/-- JavaScript Map.set: replace the entry if the key is present, otherwise
append it. -/
def mapSet {κ ν : Type} [BEq κ] (m : List (κ × ν)) (k : κ) (v : ν) : List (κ × ν) :=
  if m.any (fun p => p.1 == k) then
    m.map (fun p => if p.1 == k then (k, v) else p)
  else m ++ [(k, v)]

/-- JavaScript Map.delete. -/
def mapDelete {κ ν : Type} [BEq κ] (m : List (κ × ν)) (k : κ) : List (κ × ν) :=
  m.filter (fun p => !(p.1 == k))

/-- JavaScript Set.add on a watcher set. -/
def setAdd (l : List String) (x : String) : List String :=
  if l.any (fun y => y == x) then l else l ++ [x]

/-- JavaScript Set.delete on a watcher set. -/
def setDelete (l : List String) (x : String) : List String :=
  l.filter (fun y => !(y == x))

/-- Map.get on the clients map. -/
def lookupClient (s : WSState) (cid : String) : Option WSClient :=
  mapGet s.clients cid

/-- Map.get on the eventSubscriptions map. -/
def lookupSubs (s : WSState) (e : Nat) : Option (List String) :=
  mapGet s.eventSubscriptions e

/-- The watcher set of an event (empty when the map has no entry). -/
def watchers (s : WSState) (e : Nat) : List String :=
  (lookupSubs s e).getD []

/-- WebSocketManager.addClient: Map.set of the supplied record. -/
def addClient (s : WSState) (cid : String) (c : WSClient) : WSState :=
  { s with clients := mapSet s.clients cid c }

/-- WebSocketManager.unsubscribeFromEvent: removes the client id from the
given event's watcher set (deleting the set when it becomes empty) and then
unconditionally clears the client record's watched event, even when the
given event differs from the one the record currently watches. -/
def unsubscribeFromEvent (s : WSState) (cid : String) (eid : Nat) : WSState :=
  let subs :=
    match mapGet s.eventSubscriptions eid with
    | some ws =>
      let rest := setDelete ws cid
      if rest.isEmpty then mapDelete s.eventSubscriptions eid
      else mapSet s.eventSubscriptions eid rest
    | none => s.eventSubscriptions
  let cl :=
    match lookupClient s cid with
    | some c => mapSet s.clients cid { c with eventId := none }
    | none => s.clients
  { clients := cl, eventSubscriptions := subs }

/-- Second half of WebSocketManager.subscribeToEvent: point the client
record at the new event, then add the client id to the event's watcher set
(creating the set when absent). -/
def subscribeFinish (s1 : WSState) (cid : String) (eid : Nat) : WSState :=
  let s2 :=
    match lookupClient s1 cid with
    | some c1 => { s1 with clients := mapSet s1.clients cid { c1 with eventId := some eid } }
    | none => s1
  match mapGet s2.eventSubscriptions eid with
  | some ws => { s2 with eventSubscriptions := mapSet s2.eventSubscriptions eid (setAdd ws cid) }
  | none => { s2 with eventSubscriptions := s2.eventSubscriptions ++ [(eid, [cid])] }

/-- WebSocketManager.subscribeToEvent: missing client is a no-op; a truthy
previously watched event (nonzero id) is unsubscribed first; then the record
is pointed at the new event and the client id is added to its watcher set. -/
def subscribeToEvent (s : WSState) (cid : String) (eid : Nat) : WSState :=
  match lookupClient s cid with
  | none => s
  | some c =>
    let s1 :=
      match c.eventId with
      | some prev => if prev != 0 then unsubscribeFromEvent s cid prev else s
      | none => s
    subscribeFinish s1 cid eid

/-- WebSocketManager.removeClient: when the record exists and its watched
event id is truthy, unsubscribe from it; then delete the record. -/
def removeClient (s : WSState) (cid : String) : WSState :=
  let s1 :=
    match lookupClient s cid with
    | some c =>
      match c.eventId with
      | some e => if e != 0 then unsubscribeFromEvent s cid e else s
      | none => s
    | none => s
  { s1 with clients := mapDelete s1.clients cid }

/-- Accumulator of the delivery loop of broadcastToEvent: the evolving
registry, the client ids a send was attempted for, the client ids whose send
succeeded, and the sentCount counter of the source. -/
structure BroadcastAcc where
  state : WSState
  attempted : List String
  delivered : List String
  sentCount : Nat
deriving Repr

/-- One iteration of the delivery loop: skip ids without a record; on a
successful send count the delivery; on a throwing send remove the client
(the catch block) and continue. -/
def broadcastStep (acc : BroadcastAcc) (cid : String) : BroadcastAcc :=
  match lookupClient acc.state cid with
  | none => acc
  | some c =>
    if c.sendFails then
      { acc with state := removeClient acc.state cid, attempted := acc.attempted ++ [cid] }
    else
      { acc with
          attempted := acc.attempted ++ [cid],
          delivered := acc.delivered ++ [cid],
          sentCount := acc.sentCount + 1 }

/-- Result of a broadcastToEvent call.  retVal is the value the call
evaluates to for its caller: the source function has return type void, so
the call always evaluates to undefined, modelled as none; sentCount is only
interpolated into a log line. -/
structure BroadcastResult where
  state : WSState
  attempted : List String
  delivered : List String
  sentCount : Nat
  retVal : Option Nat
deriving Repr

/-- WebSocketManager.broadcastToEvent: no watcher set means no work;
otherwise iterate the watcher set, attempting delivery to each id that still
has a client record.  The message payload does not influence control flow. -/
def broadcastToEvent (s : WSState) (eid : Nat) (_msg : String) : BroadcastResult :=
  match lookupSubs s eid with
  | none => ⟨s, [], [], 0, none⟩
  | some watcherList =>
    let fin := watcherList.foldl broadcastStep ⟨s, [], [], 0⟩
    ⟨fin.state, fin.attempted, fin.delivered, fin.sentCount, none⟩

/-- One registry operation, as invoked from the connection routes and the
booking service. -/
inductive WSOp
  | add (cid : String) (uid : Nat) (ev : Option Nat) (fails : Bool)
  | sub (cid : String) (eid : Nat)
  | unsub (cid : String) (eid : Nat)
  | remove (cid : String)
  | bcast (eid : Nat) (msg : String)
deriving DecidableEq, Repr

/-- Effect of one registry operation on the registry state. -/
def applyWSOp (s : WSState) : WSOp → WSState
  | WSOp.add cid uid ev fails => addClient s cid ⟨uid, ev, fails⟩
  | WSOp.sub cid eid => subscribeToEvent s cid eid
  | WSOp.unsub cid eid => unsubscribeFromEvent s cid eid
  | WSOp.remove cid => removeClient s cid
  | WSOp.bcast eid msg => (broadcastToEvent s eid msg).state

/-- Effect of a sequence of registry operations. -/
def applyWSOps (s : WSState) (ops : List WSOp) : WSState :=
  ops.foldl applyWSOp s

/-- The discipline the connection routes follow: addClient registers a fresh
connection id with no watched event, subscriptions use nonzero event ids
(database serial ids start at 1), and unsubscriptions name the event the
connection currently watches (or target a connection with no record or no
watch). -/
def GoodOp (s : WSState) : WSOp → Prop
  | WSOp.add cid _ ev _ => lookupClient s cid = none ∧ ev = none
  | WSOp.sub _ eid => eid ≠ 0
  | WSOp.unsub cid eid =>
    ∀ c, lookupClient s cid = some c → c.eventId = none ∨ c.eventId = some eid
  | WSOp.remove _ => True
  | WSOp.bcast _ _ => True

/-- A sequence of registry operations each of which follows the discipline
in the state where it runs. -/
def GoodSeq : WSState → List WSOp → Prop
  | _, [] => True
  | s, op :: ops => GoodOp s op ∧ GoodSeq (applyWSOp s op) ops

/-- The registry invariant: unique keys in both maps, duplicate-free watcher
sets, no record watching the falsy event id 0, and the two maps consistent:
a client id belongs to an event's watcher set exactly when its record exists
and watches that event. -/
def WSInv (s : WSState) : Prop :=
  (s.clients.map Prod.fst).Nodup ∧
  (s.eventSubscriptions.map Prod.fst).Nodup ∧
  (∀ p ∈ s.eventSubscriptions, p.2.Nodup) ∧
  (∀ cid c, lookupClient s cid = some c → c.eventId ≠ some 0) ∧
  ∀ cid e, cid ∈ watchers s e ↔ ∃ c, lookupClient s cid = some c ∧ c.eventId = some e

/-! ## The wire message built for a seat-state-change broadcast

The BookingUpdateMessage interface declares type, eventId, bookingId,
userId, availableSeats and timestamp.  The runtime (Bun strips types without
checking them) fills parameters a call site does not pass with undefined, so
field values are modelled as JavaScript values. -/

/-- A JavaScript value as it ends up in a broadcast message field. -/
inductive JSVal
  | str (s : String)
  | num (n : Int)
  | undef
deriving DecidableEq, Repr

/-- The BookingUpdateMessage record built by broadcastBookingCreated and
broadcastBookingCancelled. -/
structure BookingUpdateMessage where
  type : String
  eventId : JSVal
  bookingId : JSVal
  userId : JSVal
  availableSeats : JSVal
  timestamp : String
deriving DecidableEq, Repr

/-- WebSocketManager.broadcastBookingCreated(eventId, bookingId, userId,
availableSeats): builds the booking_created message from its four
parameters. -/
def broadcastBookingCreatedMsg (eventId bookingId userId availableSeats : JSVal)
    (ts : String) : BookingUpdateMessage :=
  ⟨"booking_created", eventId, bookingId, userId, availableSeats, ts⟩

/-- The call site in BookingService.createBooking, which passes only two
arguments, eventId and the post-operation availableSeats: under JavaScript
call semantics the seat count binds to the bookingId parameter and the
userId and availableSeats parameters are undefined. -/
def bookingCreatedCallSite (eventId availableSeats : Int) (ts : String) :
    BookingUpdateMessage :=
  broadcastBookingCreatedMsg (JSVal.num eventId) (JSVal.num availableSeats)
    JSVal.undef JSVal.undef ts

/-! ## Concrete states used by witnesses and counterexamples -/

/-- An event with one seat left and a confirmed booking of user 1. -/
def exSeatState : DBState :=
  { events := [⟨1, 10, 2, 1⟩],
    bookings := [⟨"BK-A", 1, 1, BStatus.confirmed⟩],
    logs := [] }

/-- An event with no seat left and a confirmed booking of user 1. -/
def exFullState : DBState :=
  { events := [⟨1, 10, 1, 0⟩],
    bookings := [⟨"BK-A", 1, 1, BStatus.confirmed⟩],
    logs := [] }

/-- A single stored booking whose id was generated uppercased. -/
def exLookupState : DBState :=
  { events := [⟨1, 10, 5, 4⟩],
    bookings := [⟨"BK-AB12-CD34", 1, 1, BStatus.confirmed⟩],
    logs := [] }

/-- An event with a seat left whose only booking was already cancelled. -/
def exCancelledState : DBState :=
  { events := [⟨1, 10, 1, 1⟩],
    bookings := [⟨"BK-A", 1, 1, BStatus.cancelled⟩],
    logs := [] }

/-- The empty database. -/
def exEmptyDB : DBState := { events := [], bookings := [], logs := [] }

/-- The empty broadcaster registry. -/
def wsEmpty : WSState := ⟨[], []⟩

/-- Registry with one client whose send succeeds, watching event 1. -/
def wsOneWatcher : WSState :=
  ⟨[("c1", ⟨7, some 1, false⟩)], [(1, ["c1"])]⟩

/-- Registry reached from empty by addClient c1, subscribeToEvent c1 1,
unsubscribeFromEvent c1 2, with a send that always fails: the mismatched
unsubscribe leaves c1 in the watcher set of event 1 while its record
watches nothing. -/
def wsDesynced : WSState :=
  applyWSOps wsEmpty
    [WSOp.add "c1" 7 none true, WSOp.sub "c1" 1, WSOp.unsub "c1" 2]

/-- A consistent registry with two watchers of event 1, the first of which
has a send that always fails. -/
def wsOneFail : WSState :=
  ⟨[("c1", ⟨7, some 1, true⟩), ("c2", ⟨8, some 1, false⟩)],
   [(1, ["c1", "c2"])]⟩

/-! ## Counting lemmas for the bookings table -/

theorem confirmedCount_nil (e : Nat) : confirmedCount [] e = 0 := rfl

theorem confirmedCount_cons (b : BookingRow) (l : List BookingRow) (e : Nat) :
    confirmedCount (b :: l) e
      = (if isConfirmedFor e b then 1 else 0) + confirmedCount l e := by
  unfold confirmedCount
  by_cases h : isConfirmedFor e b
  · simp [List.filter_cons, h, Nat.add_comm]
  · simp [List.filter_cons, h]

theorem confirmedCount_append (bks : List BookingRow) (b : BookingRow) (e : Nat) :
    confirmedCount (bks ++ [b]) e
      = confirmedCount bks e + (if isConfirmedFor e b then 1 else 0) := by
  unfold confirmedCount
  rw [List.filter_append]
  by_cases h : isConfirmedFor e b
  · simp [List.filter_cons, h]
  · simp [List.filter_cons, h]

theorem confirmedCount_append_pos {b : BookingRow} {e : Nat}
    (bks : List BookingRow) (h : isConfirmedFor e b = true) :
    confirmedCount (bks ++ [b]) e = confirmedCount bks e + 1 := by
  rw [confirmedCount_append, h]
  simp

theorem confirmedCount_append_neg {b : BookingRow} {e : Nat}
    (bks : List BookingRow) (h : isConfirmedFor e b = false) :
    confirmedCount (bks ++ [b]) e = confirmedCount bks e := by
  rw [confirmedCount_append, h]
  simp

theorem find_event_unique {l : List EventRow} {e : Nat} {ev : EventRow}
    (hnd : (l.map (fun r => r.id)).Nodup) (hm : ev ∈ l) (hid : ev.id = e) :
    l.find? (fun r => r.id == e) = some ev := by
  induction l with
  | nil => cases hm
  | cons a t ih =>
    simp only [List.map_cons, List.nodup_cons] at hnd
    rcases List.mem_cons.mp hm with rfl | hm'
    · have hpa : (ev.id == e) = true := by simp [hid]
      simp only [List.find?_cons, hpa]
    · have hae : (a.id == e) = false := by
        simp only [beq_eq_false_iff_ne, ne_eq]
        intro hEq
        exact hnd.1 (hEq ▸ hid ▸ List.mem_map_of_mem (fun r => r.id) hm')
      simp only [List.find?_cons, hae]
      exact ih hnd.2 hm'

theorem cancelRow_untouched {x : BookingRow} {bid : String} (h : x.bookingId ≠ bid) :
    cancelRow bid x = x := by
  simp [cancelRow, h]

theorem map_cancelRow_untouched {t : List BookingRow} {bid : String}
    (h : ∀ x ∈ t, x.bookingId ≠ bid) : t.map (cancelRow bid) = t := by
  induction t with
  | nil => rfl
  | cons a l ih =>
    simp only [List.map_cons]
    rw [cancelRow_untouched (h a (List.mem_cons_self a l)),
      ih (fun x hx => h x (List.mem_cons_of_mem a hx))]

theorem confirmedCount_cancel {bks : List BookingRow} {bid : String} {b0 : BookingRow}
    (hnd : (bks.map (fun b => b.bookingId)).Nodup)
    (hfind : bks.find? (fun b => b.bookingId == bid && b.status == BStatus.confirmed)
      = some b0) (e : Nat) :
    confirmedCount (bks.map (cancelRow bid)) e
      + (if b0.eventId == e then 1 else 0) = confirmedCount bks e := by
  induction bks with
  | nil => simp at hfind
  | cons a t ih =>
    simp only [List.map_cons, List.nodup_cons] at hnd
    by_cases ha : a.bookingId = bid
    · have htno : ∀ x ∈ t, x.bookingId ≠ bid := by
        intro x hx hEq
        exact hnd.1 (ha ▸ hEq ▸ List.mem_map_of_mem (fun b => b.bookingId) hx)
      by_cases hc : a.status = BStatus.confirmed
      · have hpa : (a.bookingId == bid && a.status == BStatus.confirmed) = true := by
          simp [ha, hc]
        simp only [List.find?_cons, hpa, Option.some.injEq] at hfind
        rw [← hfind]
        rw [List.map_cons, map_cancelRow_untouched htno]
        have hcanc : cancelRow bid a = { a with status := BStatus.cancelled } := by
          simp [cancelRow, ha]
        rw [hcanc, confirmedCount_cons, confirmedCount_cons]
        have h1 : isConfirmedFor e { a with status := BStatus.cancelled } = false := by
          simp [isConfirmedFor]
        have h2 : isConfirmedFor e a = (a.eventId == e) := by
          simp [isConfirmedFor, hc]
        rw [h1, h2]
        by_cases he : a.eventId = e
        · simp [he]; omega
        · simp [he]
      · have hpa : (a.bookingId == bid && a.status == BStatus.confirmed) = false := by
          simp [hc]
        simp only [List.find?_cons, hpa] at hfind
        have hb0 := List.mem_of_find?_eq_some hfind
        have hp := List.find?_some hfind
        simp only [Bool.and_eq_true, beq_iff_eq] at hp
        exact absurd hp.1 (htno b0 hb0)
    · have hpa : (a.bookingId == bid && a.status == BStatus.confirmed) = false := by
        simp [ha]
      simp only [List.find?_cons, hpa] at hfind
      rw [List.map_cons, cancelRow_untouched ha, confirmedCount_cons, confirmedCount_cons]
      have := ih hnd.2 hfind
      omega

theorem confirmedCount_cancel_eq {bks : List BookingRow} {bid : String} {b0 : BookingRow}
    (hnd : (bks.map (fun b => b.bookingId)).Nodup)
    (hfind : bks.find? (fun b => b.bookingId == bid && b.status == BStatus.confirmed)
      = some b0) {e : Nat} (he : (b0.eventId == e) = true) :
    confirmedCount (bks.map (cancelRow bid)) e + 1 = confirmedCount bks e := by
  have h := confirmedCount_cancel hnd hfind e
  rw [he] at h
  simpa using h

theorem confirmedCount_cancel_ne {bks : List BookingRow} {bid : String} {b0 : BookingRow}
    (hnd : (bks.map (fun b => b.bookingId)).Nodup)
    (hfind : bks.find? (fun b => b.bookingId == bid && b.status == BStatus.confirmed)
      = some b0) {e : Nat} (he : (b0.eventId == e) = false) :
    confirmedCount (bks.map (cancelRow bid)) e = confirmedCount bks e := by
  have h := confirmedCount_cancel hnd hfind e
  rw [he] at h
  simpa using h

/-! ## Preservation of the allocator invariant -/

theorem decSeat_id (e : Nat) (r : EventRow) : (decSeat e r).id = r.id := by
  unfold decSeat; split <;> rfl

theorem incSeat_id (e : Nat) (r : EventRow) : (incSeat e r).id = r.id := by
  unfold incSeat; split <;> rfl

theorem map_decSeat_keys (l : List EventRow) (e : Nat) :
    (l.map (decSeat e)).map (fun r => r.id) = l.map (fun r => r.id) := by
  rw [List.map_map]
  exact List.map_congr_left (fun r _ => decSeat_id e r)

theorem map_incSeat_keys (l : List EventRow) (e : Nat) :
    (l.map (incSeat e)).map (fun r => r.id) = l.map (fun r => r.id) := by
  rw [List.map_map]
  exact List.map_congr_left (fun r _ => incSeat_id e r)

theorem cancelRow_bookingId (bid : String) (b : BookingRow) :
    (cancelRow bid b).bookingId = b.bookingId := by
  unfold cancelRow; split <;> rfl

theorem DBInv_create (s : DBState) (u e : Nat) (bid : String) (h : DBInv s) :
    DBInv (create_booking s u e bid).1 := by
  obtain ⟨hev, hbk, hcons⟩ := h
  unfold create_booking
  cases hfe : findEvent s e with
  | none => exact ⟨hev, hbk, hcons⟩
  | some ev =>
    dsimp only
    by_cases hseat : ev.availableSeats ≤ 0
    · rw [if_pos hseat]
      exact ⟨hev, hbk, hcons⟩
    · rw [if_neg hseat]
      by_cases huniq : (bookingIdTaken s.bookings bid || hasConfirmed s.bookings u e) = true
      · rw [if_pos huniq]
        exact ⟨hev, hbk, hcons⟩
      · rw [if_neg huniq]
        have hfresh : ∀ b ∈ s.bookings, b.bookingId ≠ bid := by
          intro b hb hEq
          have : bookingIdTaken s.bookings bid = true :=
            List.any_eq_true.mpr ⟨b, hb, by simp [hEq]⟩
          simp [this] at huniq
        refine ⟨?_, ?_, ?_⟩
        · dsimp only
          rw [map_decSeat_keys]; exact hev
        · dsimp only
          rw [List.map_append]
          simp only [List.map_cons, List.map_nil]
          rw [List.nodup_append]
          refine ⟨hbk, List.nodup_singleton _, ?_⟩
          intro x hx hx'
          simp only [List.mem_singleton] at hx'
          obtain ⟨b, hb, rfl⟩ := List.mem_map.mp hx
          exact hfresh b hb hx'
        · dsimp only
          intro ev' hmem
          obtain ⟨ev0, hev0, rfl⟩ := List.mem_map.mp hmem
          have hc := hcons ev0 hev0
          by_cases hid : ev0.id = e
          · have hu : findEvent s e = some ev0 := find_event_unique hev hev0 hid
            rw [hfe] at hu
            have hpos : ¬ ev0.availableSeats ≤ 0 := (Option.some.inj hu) ▸ hseat
            have hdec : decSeat e ev0 = { ev0 with availableSeats := ev0.availableSeats - 1 } := by
              simp [decSeat, hid]
            have hnew : isConfirmedFor ev0.id ⟨bid, u, e, BStatus.confirmed⟩ = true := by
              simp [isConfirmedFor, hid]
            rw [hdec, confirmedCount_append_pos s.bookings hnew]
            dsimp only
            constructor
            · omega
            · push_cast
              omega
          · have hdec : decSeat e ev0 = ev0 := by
              simp only [decSeat]
              rw [if_neg]
              simp only [beq_iff_eq]
              exact hid
            have hnew : isConfirmedFor ev0.id ⟨bid, u, e, BStatus.confirmed⟩ = false := by
              have : (e == ev0.id) = false := by
                simp only [beq_eq_false_iff_ne, ne_eq]
                exact fun hEq => hid hEq.symm
              simp [isConfirmedFor, this]
            rw [hdec, confirmedCount_append_neg s.bookings hnew]
            exact hc

theorem DBInv_cancel (s : DBState) (bid : String) (h : DBInv s) :
    DBInv (cancel_booking s bid).1 := by
  obtain ⟨hev, hbk, hcons⟩ := h
  unfold cancel_booking
  cases hfind : s.bookings.find?
      (fun b => b.bookingId == bid && b.status == BStatus.confirmed) with
  | none => exact ⟨hev, hbk, hcons⟩
  | some b0 =>
    dsimp only
    cases hfe : findEvent s b0.eventId with
    | none => exact ⟨hev, hbk, hcons⟩
    | some evb =>
      dsimp only
      refine ⟨?_, ?_, ?_⟩
      · dsimp only
        rw [map_incSeat_keys]; exact hev
      · dsimp only
        have : (s.bookings.map (cancelRow bid)).map (fun b => b.bookingId)
            = s.bookings.map (fun b => b.bookingId) := by
          rw [List.map_map]
          exact List.map_congr_left (fun b _ => cancelRow_bookingId bid b)
        rw [this]; exact hbk
      · dsimp only
        intro ev' hmem
        obtain ⟨ev0, hev0, rfl⟩ := List.mem_map.mp hmem
        have hc := hcons ev0 hev0
        by_cases hid : ev0.id = b0.eventId
        · have hinc : incSeat b0.eventId ev0
              = { ev0 with availableSeats := ev0.availableSeats + 1 } := by
            simp [incSeat, hid]
          have hbe : (b0.eventId == ev0.id) = true := by simp [hid]
          have hcount := confirmedCount_cancel_eq hbk hfind hbe
          rw [hinc]
          dsimp only
          constructor
          · omega
          · omega
        · have hinc : incSeat b0.eventId ev0 = ev0 := by
            simp only [incSeat]
            rw [if_neg]
            simp only [beq_iff_eq]
            exact hid
          have hbe : (b0.eventId == ev0.id) = false := by
            simp only [beq_eq_false_iff_ne, ne_eq]
            exact fun hEq => hid hEq.symm
          have hcount := confirmedCount_cancel_ne hbk hfind hbe
          rw [hinc, hcount]
          exact hc

theorem DBInv_applyAllocOp (s : DBState) (op : AllocOp) (h : DBInv s) :
    DBInv (applyAllocOp s op) := by
  cases op with
  | reserve u e bid => exact DBInv_create s u e bid h
  | release bid => exact DBInv_cancel s bid h

theorem DBInv_applyAllocOps (s : DBState) (ops : List AllocOp) (h : DBInv s) :
    DBInv (applyAllocOps s ops) := by
  induction ops generalizing s with
  | nil => exact h
  | cons op rest ih => exact ih (applyAllocOp s op) (DBInv_applyAllocOp s op h)

/-- C1: in every state reachable from a state satisfying the conservation
equation by any sequence of create_booking and cancel_booking calls, every
event still satisfies availableSeats plus the number of confirmed (Held)
bookings equals seatCapacity, availableSeats is never negative, and the
number of confirmed bookings never exceeds seatCapacity. -/
theorem C1_conservation (s : DBState) (h : DBInv s) (ops : List AllocOp) :
    ∀ ev ∈ (applyAllocOps s ops).events,
      0 ≤ ev.availableSeats ∧
      ev.availableSeats + (confirmedCount (applyAllocOps s ops).bookings ev.id : Int)
        = ev.seatCapacity ∧
      (confirmedCount (applyAllocOps s ops).bookings ev.id : Int) ≤ ev.seatCapacity := by
  obtain ⟨-, -, hcons⟩ := DBInv_applyAllocOps s ops h
  intro ev hm
  obtain ⟨h1, h2⟩ := hcons ev hm
  exact ⟨h1, h2, by omega⟩

/-- Witness for C1 at a concrete state and operation sequence. -/
theorem C1_conservation_witness :
    DBInv exSeatState ∧
    ∀ ev ∈ (applyAllocOps exSeatState
        [AllocOp.reserve 2 1 "BK-B", AllocOp.release "BK-A",
         AllocOp.reserve 3 1 "BK-C", AllocOp.release "BK-ZZ"]).events,
      0 ≤ ev.availableSeats ∧
      ev.availableSeats + (confirmedCount (applyAllocOps exSeatState
        [AllocOp.reserve 2 1 "BK-B", AllocOp.release "BK-A",
         AllocOp.reserve 3 1 "BK-C", AllocOp.release "BK-ZZ"]).bookings ev.id : Int)
        = ev.seatCapacity ∧
      (confirmedCount (applyAllocOps exSeatState
        [AllocOp.reserve 2 1 "BK-B", AllocOp.release "BK-A",
         AllocOp.reserve 3 1 "BK-C", AllocOp.release "BK-ZZ"]).bookings ev.id : Int)
        ≤ ev.seatCapacity :=
  ⟨by decide, C1_conservation exSeatState (by decide) _⟩

/-! ## The order of the reserve precondition checks -/

/-- C2 counterexample: a subject who already holds a confirmed reservation
for a future event whose seats are exhausted is answered with the
seats-exhausted error, not the duplicate-reservation error, because the
service checks seat availability before the duplicate check. -/
theorem C2_counterexample :
    hasConfirmed exFullState.bookings 1 1 = true ∧
    findEvent exFullState 1 = some ⟨1, 10, 1, 0⟩ ∧
    (createBooking exFullState 5 1 1 "BK-B").2
      = CreateOutcome.failed BookingError.seatsExhausted ∧
    (createBooking exFullState 5 1 1 "BK-B").2
      ≠ CreateOutcome.failed BookingError.duplicateReservation := by
  decide

/-- C2 (amended): createBooking reports the first failed check in source
order: missing event, then event not strictly in the future, then no seats
available, then an existing confirmed reservation of this subject; in
particular a subject holding a reservation for a sold-out future event gets
the seats-exhausted error. -/
theorem C2_check_order (s : DBState) (now : Int) (u e : Nat) (bid : String) :
    (findEvent s e = none →
      (createBooking s now u e bid).2 = CreateOutcome.failed BookingError.eventNotFound) ∧
    (∀ ev, findEvent s e = some ev → ev.eventDate ≤ now →
      (createBooking s now u e bid).2 = CreateOutcome.failed BookingError.eventInPast) ∧
    (∀ ev, findEvent s e = some ev → now < ev.eventDate → ev.availableSeats ≤ 0 →
      (createBooking s now u e bid).2 = CreateOutcome.failed BookingError.seatsExhausted) ∧
    (∀ ev, findEvent s e = some ev → now < ev.eventDate → 0 < ev.availableSeats →
      hasConfirmed s.bookings u e = true →
      (createBooking s now u e bid).2
        = CreateOutcome.failed BookingError.duplicateReservation) := by
  refine ⟨?_, ?_, ?_, ?_⟩
  · intro h
    unfold createBooking
    rw [h]
  · intro ev h hpast
    unfold createBooking
    rw [h]
    dsimp only
    rw [if_pos hpast]
  · intro ev h hfut hseat
    unfold createBooking
    rw [h]
    dsimp only
    rw [if_neg (by omega), if_pos hseat]
  · intro ev h hfut hpos hdup
    unfold createBooking
    rw [h]
    dsimp only
    rw [if_neg (by omega), if_neg (by omega), if_pos hdup]

/-- Witness for C2 (amended): each of the four errors at a concrete input. -/
theorem C2_check_order_witness :
    (createBooking exFullState 5 1 999 "BK-B").2
      = CreateOutcome.failed BookingError.eventNotFound ∧
    (createBooking exFullState 20 1 1 "BK-B").2
      = CreateOutcome.failed BookingError.eventInPast ∧
    (createBooking exFullState 5 2 1 "BK-B").2
      = CreateOutcome.failed BookingError.seatsExhausted ∧
    (createBooking exSeatState 5 1 1 "BK-B").2
      = CreateOutcome.failed BookingError.duplicateReservation :=
  ⟨(C2_check_order exFullState 5 1 999 "BK-B").1 (by decide),
   (C2_check_order exFullState 20 1 1 "BK-B").2.1 ⟨1, 10, 1, 0⟩ (by decide) (by decide),
   (C2_check_order exFullState 5 2 1 "BK-B").2.2.1 ⟨1, 10, 1, 0⟩ (by decide) (by decide)
     (by decide),
   (C2_check_order exSeatState 5 1 1 "BK-B").2.2.2 ⟨1, 10, 2, 1⟩ (by decide) (by decide)
     (by decide) (by decide)⟩

/-! ## The release guards -/

/-- C7: cancelBooking fails, leaving the database (and so availableSeats)
untouched, when the reservation is missing, when the requester is neither
its owner nor an admin, when its status is no longer confirmed (so a second
release of the same reservation fails and does not increment seats again),
and when the joined event has already occurred. -/
theorem C7_cancel_guards (s : DBState) (now : Int) (bid : String) (uid : Nat)
    (role : String) :
    (getBookingByBookingId s bid = none →
      cancelBooking s now bid uid role
        = (s, CancelOutcome.failed BookingError.bookingNotFound)) ∧
    (∀ b evOpt, getBookingByBookingId s bid = some (b, evOpt) →
      role ≠ "admin" → b.userId ≠ uid →
      cancelBooking s now bid uid role
        = (s, CancelOutcome.failed BookingError.notAuthorized)) ∧
    (∀ b evOpt, getBookingByBookingId s bid = some (b, evOpt) →
      (role = "admin" ∨ b.userId = uid) → b.status ≠ BStatus.confirmed →
      cancelBooking s now bid uid role
        = (s, CancelOutcome.failed BookingError.alreadyCancelled)) ∧
    (∀ b ev, getBookingByBookingId s bid = some (b, some ev) →
      (role = "admin" ∨ b.userId = uid) → b.status = BStatus.confirmed →
      ev.eventDate ≤ now →
      cancelBooking s now bid uid role
        = (s, CancelOutcome.failed BookingError.eventOccurred)) := by
  refine ⟨?_, ?_, ?_, ?_⟩
  · intro h
    unfold cancelBooking
    rw [h]
  · intro b evOpt h hrole huid
    unfold cancelBooking
    rw [h]
    dsimp only
    rw [if_pos ⟨hrole, huid⟩]
  · intro b evOpt h hown hstatus
    unfold cancelBooking
    rw [h]
    dsimp only
    rw [if_neg (by tauto), if_pos hstatus]
  · intro b ev h hown hstatus hdate
    unfold cancelBooking
    rw [h]
    dsimp only
    rw [if_neg (by tauto), if_neg (by simp [hstatus]),
      if_pos ⟨by simp, by simpa using hdate⟩]

/-- Witness for C7: each of the four failures at a concrete input, each
leaving the state unchanged. -/
theorem C7_cancel_guards_witness :
    cancelBooking exFullState 5 "BK-NONE" 1 "user"
      = (exFullState, CancelOutcome.failed BookingError.bookingNotFound) ∧
    cancelBooking exFullState 5 "BK-A" 2 "user"
      = (exFullState, CancelOutcome.failed BookingError.notAuthorized) ∧
    cancelBooking exCancelledState 5 "BK-A" 1 "user"
      = (exCancelledState, CancelOutcome.failed BookingError.alreadyCancelled) ∧
    cancelBooking exFullState 20 "BK-A" 1 "user"
      = (exFullState, CancelOutcome.failed BookingError.eventOccurred) :=
  ⟨(C7_cancel_guards exFullState 5 "BK-NONE" 1 "user").1 (by decide),
   (C7_cancel_guards exFullState 5 "BK-A" 2 "user").2.1
     ⟨"BK-A", 1, 1, BStatus.confirmed⟩ (some ⟨1, 10, 1, 0⟩) (by decide) (by decide)
     (by decide),
   (C7_cancel_guards exCancelledState 5 "BK-A" 1 "user").2.2.1
     ⟨"BK-A", 1, 1, BStatus.cancelled⟩ (some ⟨1, 10, 1, 1⟩) (by decide) (Or.inr (by decide))
     (by decide),
   (C7_cancel_guards exFullState 20 "BK-A" 1 "user").2.2.2
     ⟨"BK-A", 1, 1, BStatus.confirmed⟩ ⟨1, 10, 1, 0⟩ (by decide) (Or.inr (by decide))
     (by decide) (by decide)⟩

/-! ## Reservation id generation and lookup -/

/-- C9: generated booking ids are uppercased, and getBookingByBookingId is
an exact, case-sensitive comparison: looking a stored id up by its lowercase
form returns nothing, contradicting the documented case-insensitive
lookup. -/
theorem C9_lookup_case_sensitive :
    generateBookingId "ab12" "cd34" = "BK-AB12-CD34" ∧
    (getBookingByBookingId exLookupState "BK-AB12-CD34").isSome = true ∧
    getBookingByBookingId exLookupState "bk-ab12-cd34" = none := by
  refine ⟨rfl, rfl, rfl⟩

/-! ## Event creation -/

theorem confirmedCount_zero {l : List BookingRow} {e : Nat}
    (h : ∀ b ∈ l, b.eventId ≠ e) : confirmedCount l e = 0 := by
  induction l with
  | nil => rfl
  | cons a t ih =>
    rw [confirmedCount_cons]
    have ha : isConfirmedFor e a = false := by
      simp only [isConfirmedFor, Bool.and_eq_false_iff]
      left
      simp only [beq_eq_false_iff_ne, ne_eq]
      exact h a (List.mem_cons_self a t)
    rw [ha]
    simpa using ih (fun b hb => h b (List.mem_cons_of_mem a hb))

/-- C10: a createEvent call with an event date strictly in the future
succeeds and appends an event whose availableSeats equals its seatCapacity,
so that, when no booking references the new id, the conservation equation
holds with zero confirmed reservations; a call whose date is not strictly in
the future fails and leaves the database unchanged. -/
theorem C10_createEvent (s : DBState) (now : Int) (newId : Nat)
    (eventDate seatCapacity : Int) :
    (now < eventDate →
      (createEvent s now newId eventDate seatCapacity).2
        = CreateEventOutcome.ok ⟨newId, eventDate, seatCapacity, seatCapacity⟩ ∧
      (createEvent s now newId eventDate seatCapacity).1.events
        = s.events ++ [⟨newId, eventDate, seatCapacity, seatCapacity⟩] ∧
      ((∀ b ∈ s.bookings, b.eventId ≠ newId) →
        confirmedCount (createEvent s now newId eventDate seatCapacity).1.bookings newId = 0 ∧
        (⟨newId, eventDate, seatCapacity, seatCapacity⟩ : EventRow).availableSeats
          + (confirmedCount (createEvent s now newId eventDate seatCapacity).1.bookings newId : Int)
          = (⟨newId, eventDate, seatCapacity, seatCapacity⟩ : EventRow).seatCapacity)) ∧
    (eventDate ≤ now →
      (createEvent s now newId eventDate seatCapacity).2
        = CreateEventOutcome.failed "Event date must be in the future" ∧
      (createEvent s now newId eventDate seatCapacity).1 = s) := by
  constructor
  · intro hfut
    have hcond : ¬ eventDate ≤ now := by omega
    unfold createEvent
    rw [if_neg hcond]
    refine ⟨rfl, rfl, ?_⟩
    intro hnob
    have hz : confirmedCount s.bookings newId = 0 := confirmedCount_zero hnob
    dsimp only
    rw [hz]
    exact ⟨rfl, by simp⟩
  · intro hpast
    unfold createEvent
    rw [if_pos hpast]
    exact ⟨rfl, rfl⟩

/-- Witness for C10: a concrete creation in an empty database and a
concrete rejected creation. -/
theorem C10_createEvent_witness :
    ((createEvent exEmptyDB 0 1 10 5).2 = CreateEventOutcome.ok ⟨1, 10, 5, 5⟩ ∧
      (createEvent exEmptyDB 0 1 10 5).1.events = exEmptyDB.events ++ [⟨1, 10, 5, 5⟩] ∧
      confirmedCount (createEvent exEmptyDB 0 1 10 5).1.bookings 1 = 0 ∧
      (⟨1, 10, 5, 5⟩ : EventRow).availableSeats
        + (confirmedCount (createEvent exEmptyDB 0 1 10 5).1.bookings 1 : Int)
        = (⟨1, 10, 5, 5⟩ : EventRow).seatCapacity) ∧
    ((createEvent exEmptyDB 20 1 10 5).2
        = CreateEventOutcome.failed "Event date must be in the future" ∧
      (createEvent exEmptyDB 20 1 10 5).1 = exEmptyDB) := by
  have h1 := (C10_createEvent exEmptyDB 0 1 10 5).1 (by decide)
  have h2 := (C10_createEvent exEmptyDB 20 1 10 5).2 (by decide)
  have h3 := h1.2.2 (by intro b hb; cases hb)
  exact ⟨⟨h1.1, h1.2.1, h3.1, h3.2⟩, h2⟩

/-! ## At most one Held reservation per (subject, event) pair -/

theorem pairConfirmedCount_cons (b : BookingRow) (l : List BookingRow) (u e : Nat) :
    pairConfirmedCount (b :: l) u e
      = (if pairConfirmed u e b then 1 else 0) + pairConfirmedCount l u e := by
  unfold pairConfirmedCount
  by_cases h : pairConfirmed u e b
  · simp [List.filter_cons, h, Nat.add_comm]
  · simp [List.filter_cons, h]

theorem pairConfirmedCount_append (l : List BookingRow) (b : BookingRow) (u e : Nat) :
    pairConfirmedCount (l ++ [b]) u e
      = pairConfirmedCount l u e + (if pairConfirmed u e b then 1 else 0) := by
  unfold pairConfirmedCount
  rw [List.filter_append]
  by_cases h : pairConfirmed u e b
  · simp [List.filter_cons, h]
  · simp [List.filter_cons, h]

theorem pairConfirmedCount_eq_zero {l : List BookingRow} {u e : Nat}
    (h : hasConfirmed l u e = false) : pairConfirmedCount l u e = 0 := by
  unfold pairConfirmedCount
  unfold hasConfirmed at h
  rw [List.length_eq_zero]
  rw [List.filter_eq_nil_iff]
  intro b hb hp
  have := List.any_eq_true.mpr ⟨b, hb, hp⟩
  rw [h] at this
  cases this

theorem hasConfirmed_eq_false {l : List BookingRow} {u e : Nat}
    (h : pairConfirmedCount l u e = 0) : hasConfirmed l u e = false := by
  unfold pairConfirmedCount at h
  rw [List.length_eq_zero, List.filter_eq_nil_iff] at h
  unfold hasConfirmed
  rw [List.any_eq_false]
  exact h

theorem two_mem_le_length {α : Type} {l : List α} {a b : α}
    (ha : a ∈ l) (hb : b ∈ l) (hne : a ≠ b) : 2 ≤ l.length := by
  induction l with
  | nil => cases ha
  | cons x t ih =>
    rcases List.mem_cons.mp ha with rfl | ha'
    · rcases List.mem_cons.mp hb with rfl | hb'
      · exact absurd rfl hne
      · have : 1 ≤ t.length := List.length_pos_of_mem hb'
        simp only [List.length_cons]
        omega
    · rcases List.mem_cons.mp hb with rfl | hb'
      · have : 1 ≤ t.length := List.length_pos_of_mem ha'
        simp only [List.length_cons]
        omega
      · have := ih ha' hb'
        simp only [List.length_cons]
        omega

theorem pairConfirmed_of_cancelRow {u e : Nat} {bid : String} {b : BookingRow}
    (h : pairConfirmed u e (cancelRow bid b) = true) :
    b.bookingId ≠ bid ∧ pairConfirmed u e b = true := by
  by_cases hb : b.bookingId = bid
  · exfalso
    have : cancelRow bid b = { b with status := BStatus.cancelled } := by
      simp [cancelRow, hb]
    rw [this] at h
    simp [pairConfirmed] at h
  · rw [cancelRow_untouched hb] at h
    exact ⟨hb, h⟩

theorem pairConfirmedCount_map_cancel_le (l : List BookingRow) (bid : String) (u e : Nat) :
    pairConfirmedCount (l.map (cancelRow bid)) u e ≤ pairConfirmedCount l u e := by
  induction l with
  | nil => exact Nat.le_refl _
  | cons a t ih =>
    rw [List.map_cons, pairConfirmedCount_cons, pairConfirmedCount_cons]
    have hle : (if pairConfirmed u e (cancelRow bid a) then 1 else 0)
        ≤ (if pairConfirmed u e a then 1 else 0) := by
      by_cases h : pairConfirmed u e (cancelRow bid a) = true
      · rw [if_pos h, if_pos (pairConfirmed_of_cancelRow h).2]
      · rw [if_neg h]
        omega
    omega

theorem AtMostOne_create (s : DBState) (u e : Nat) (bid : String)
    (h : AtMostOnePerPair s) : AtMostOnePerPair (create_booking s u e bid).1 := by
  unfold create_booking
  cases hfe : findEvent s e with
  | none => exact h
  | some ev =>
    dsimp only
    by_cases hseat : ev.availableSeats ≤ 0
    · rw [if_pos hseat]
      exact h
    · rw [if_neg hseat]
      by_cases huniq : (bookingIdTaken s.bookings bid || hasConfirmed s.bookings u e) = true
      · rw [if_pos huniq]
        exact h
      · rw [if_neg huniq]
        have hconf : hasConfirmed s.bookings u e = false := by
          have h0 : (bookingIdTaken s.bookings bid || hasConfirmed s.bookings u e)
              = false := Bool.eq_false_iff.mpr huniq
          exact (Bool.or_eq_false_iff.mp h0).2
        intro u' e'
        dsimp only
        rw [pairConfirmedCount_append]
        by_cases hmatch : pairConfirmed u' e' ⟨bid, u, e, BStatus.confirmed⟩ = true
        · rw [if_pos hmatch]
          have hu : u = u' ∧ e = e' := by
            simp only [pairConfirmed, Bool.and_eq_true, beq_iff_eq] at hmatch
            tauto
          obtain ⟨rfl, rfl⟩ := hu
          rw [pairConfirmedCount_eq_zero hconf]
        · rw [if_neg hmatch]
          simpa using h u' e'

theorem AtMostOne_cancel (s : DBState) (bid : String)
    (h : AtMostOnePerPair s) : AtMostOnePerPair (cancel_booking s bid).1 := by
  unfold cancel_booking
  cases hfind : s.bookings.find?
      (fun b => b.bookingId == bid && b.status == BStatus.confirmed) with
  | none => exact h
  | some b0 =>
    dsimp only
    cases hfe : findEvent s b0.eventId with
    | none => exact h
    | some evb =>
      intro u' e'
      dsimp only
      exact Nat.le_trans (pairConfirmedCount_map_cancel_le s.bookings bid u' e') (h u' e')

theorem AtMostOne_applyAllocOps (s : DBState) (ops : List AllocOp)
    (h : AtMostOnePerPair s) : AtMostOnePerPair (applyAllocOps s ops) := by
  induction ops generalizing s with
  | nil => exact h
  | cons op rest ih =>
    refine ih (applyAllocOp s op) ?_
    cases op with
    | reserve u e bid => exact AtMostOne_create s u e bid h
    | release bid => exact AtMostOne_cancel s bid h

theorem AtMostOne_of_short {s : DBState} (h : s.bookings.length ≤ 1) :
    AtMostOnePerPair s :=
  fun _ _ => Nat.le_trans (List.length_filter_le _ _) h

theorem find?_strengthen {α : Type} {p q : α → Bool} {l : List α} {b : α}
    (hpq : ∀ x, q x = true → p x = true)
    (hfind : l.find? p = some b) (hqb : q b = true) : l.find? q = some b := by
  induction l with
  | nil => cases hfind
  | cons a t ih =>
    cases hpa : p a with
    | true =>
      rw [List.find?_cons, hpa] at hfind
      cases hfind
      rw [List.find?_cons, hqb]
    | false =>
      have hqa : q a = false := by
        cases hqa : q a with
        | true => rw [hpq a hqa] at hpa; cases hpa
        | false => rfl
      rw [List.find?_cons, hpa] at hfind
      rw [List.find?_cons, hqa]
      exact ih hfind

theorem pairConfirmedCount_cancel_self {s : DBState} {bid : String} {b0 : BookingRow}
    (hAMO : AtMostOnePerPair s)
    (hfind : s.bookings.find? (fun b => b.bookingId == bid && b.status == BStatus.confirmed)
      = some b0) :
    pairConfirmedCount (s.bookings.map (cancelRow bid)) b0.userId b0.eventId = 0 := by
  have hb0mem := List.mem_of_find?_eq_some hfind
  have hb0p := List.find?_some hfind
  simp only [Bool.and_eq_true, beq_iff_eq] at hb0p
  have hb0pair : pairConfirmed b0.userId b0.eventId b0 = true := by
    simp [pairConfirmed, hb0p.2]
  unfold pairConfirmedCount
  rw [List.length_eq_zero, List.filter_eq_nil_iff]
  intro x hx hp
  obtain ⟨r, hr, rfl⟩ := List.mem_map.mp hx
  obtain ⟨hrbid, hrpair⟩ := pairConfirmed_of_cancelRow hp
  have hrne : r ≠ b0 := fun hEq => hrbid (hEq ▸ hb0p.1)
  have hrf : r ∈ s.bookings.filter (pairConfirmed b0.userId b0.eventId) :=
    List.mem_filter.mpr ⟨hr, hrpair⟩
  have hbf : b0 ∈ s.bookings.filter (pairConfirmed b0.userId b0.eventId) :=
    List.mem_filter.mpr ⟨hb0mem, hb0pair⟩
  have h2 := two_mem_le_length hrf hbf hrne
  have h1 := hAMO b0.userId b0.eventId
  unfold pairConfirmedCount at h1
  omega

/-- C3: the at-most-one-confirmed-reservation-per-(subject, event) invariant
is preserved by every sequence of stored-procedure calls (the partial unique
index only constrains confirmed rows), and once a subject's confirmed
reservation has been cancelled, a new createBooking by the same subject for
the same event succeeds, inserting a fresh confirmed reservation, provided
the event is still in the future with a seat available and the freshly
generated booking id is unused. -/
theorem C3_at_most_one_and_rebook :
    (∀ s ops, AtMostOnePerPair s → AtMostOnePerPair (applyAllocOps s ops)) ∧
    (∀ s (now' : Int) (u e : Nat) (bid bid' : String) (b0 : BookingRow)
      (evb : EventRow),
      AtMostOnePerPair s →
      s.bookings.find? (fun b => b.bookingId == bid && b.status == BStatus.confirmed)
        = some b0 →
      b0.userId = u → b0.eventId = e →
      findEvent s e = some evb →
      ∀ ev', findEvent (cancel_booking s bid).1 e = some ev' →
        now' < ev'.eventDate → 0 < ev'.availableSeats →
        bookingIdTaken (cancel_booking s bid).1.bookings bid' = false →
        (createBooking (cancel_booking s bid).1 now' u e bid').2
          = CreateOutcome.created bid' ∧
        (⟨bid', u, e, BStatus.confirmed⟩ : BookingRow)
          ∈ (createBooking (cancel_booking s bid).1 now' u e bid').1.bookings) := by
  constructor
  · exact fun s ops h => AtMostOne_applyAllocOps s ops h
  · intro s now' u e bid bid' b0 evb hAMO hfind hu he hfe ev' hfe' hfut hpos hfresh
    subst hu
    subst he
    have hscancel : (cancel_booking s bid).1
        = { events := s.events.map (incSeat b0.eventId),
            bookings := s.bookings.map (cancelRow bid),
            logs := s.logs ++ [⟨bid, "cancelled", none⟩] } := by
      unfold cancel_booking
      rw [hfind]
      dsimp only
      rw [hfe]
    have hconf : hasConfirmed (cancel_booking s bid).1.bookings b0.userId b0.eventId
        = false := by
      rw [hscancel]
      exact hasConfirmed_eq_false (pairConfirmedCount_cancel_self hAMO hfind)
    have hnotseat : ¬ ev'.availableSeats ≤ 0 := by omega
    have hnotpast : ¬ ev'.eventDate ≤ now' := by omega
    have horfalse : (bookingIdTaken (cancel_booking s bid).1.bookings bid'
        || hasConfirmed (cancel_booking s bid).1.bookings b0.userId b0.eventId) = true
        → False := by
      rw [hfresh, hconf]
      intro hx
      cases hx
    have hproc : create_booking (cancel_booking s bid).1 b0.userId b0.eventId bid'
        = ({ events := (cancel_booking s bid).1.events.map (decSeat b0.eventId),
             bookings := (cancel_booking s bid).1.bookings
               ++ [⟨bid', b0.userId, b0.eventId, BStatus.confirmed⟩],
             logs := (cancel_booking s bid).1.logs
               ++ [⟨bid', "created", some (ev'.availableSeats - 1)⟩] },
           ProcResult.ok) := by
      unfold create_booking
      rw [hfe']
      dsimp only
      rw [if_neg hnotseat, if_neg horfalse]
    have hfindnew : ((cancel_booking s bid).1.bookings
        ++ [(⟨bid', b0.userId, b0.eventId, BStatus.confirmed⟩ : BookingRow)]).find?
          (fun b => b.bookingId == bid')
        = some (⟨bid', b0.userId, b0.eventId, BStatus.confirmed⟩ : BookingRow) := by
      rw [List.find?_append]
      have : (cancel_booking s bid).1.bookings.find? (fun b => b.bookingId == bid')
          = none := by
        rw [List.find?_eq_none]
        intro x hx hpx
        have : bookingIdTaken (cancel_booking s bid).1.bookings bid' = true :=
          List.any_eq_true.mpr ⟨x, hx, hpx⟩
        rw [hfresh] at this
        cases this
      rw [this]
      simp [List.find?_cons]
    constructor
    · unfold createBooking
      rw [hfe']
      dsimp only
      rw [if_neg hnotpast, if_neg hnotseat, if_neg (by rw [hconf]; intro hx; cases hx)]
      rw [hproc]
      dsimp only
      unfold getBookingByBookingId
      dsimp only
      rw [hfindnew]
      rfl
    · unfold createBooking
      rw [hfe']
      dsimp only
      rw [if_neg hnotpast, if_neg hnotseat, if_neg (by rw [hconf]; intro hx; cases hx)]
      rw [hproc]
      dsimp only
      unfold getBookingByBookingId
      dsimp only
      rw [hfindnew]
      exact List.mem_append.mpr (Or.inr (List.mem_singleton.mpr rfl))

/-- Witness for C3: the invariant preserved over a concrete sequence, and a
concrete reserve-release-reserve run whose second reserve succeeds. -/
theorem C3_at_most_one_and_rebook_witness :
    AtMostOnePerPair (applyAllocOps exFullState
      [AllocOp.release "BK-A", AllocOp.reserve 1 1 "BK-B"]) ∧
    ((createBooking (cancel_booking exFullState "BK-A").1 5 1 1 "BK-B").2
        = CreateOutcome.created "BK-B" ∧
      (⟨"BK-B", 1, 1, BStatus.confirmed⟩ : BookingRow)
        ∈ (createBooking (cancel_booking exFullState "BK-A").1 5 1 1 "BK-B").1.bookings) :=
  ⟨C3_at_most_one_and_rebook.1 exFullState
      [AllocOp.release "BK-A", AllocOp.reserve 1 1 "BK-B"]
      (AtMostOne_of_short (by decide)),
   C3_at_most_one_and_rebook.2 exFullState 5 1 1 "BK-A" "BK-B"
      ⟨"BK-A", 1, 1, BStatus.confirmed⟩ ⟨1, 10, 1, 0⟩
      (AtMostOne_of_short (by decide)) (by decide) rfl rfl (by decide)
      ⟨1, 10, 1, 1⟩ (by decide) (by decide) (by decide) (by decide)⟩

/-! ## JavaScript Map and Set primitive lemmas -/

theorem find?_map_invariant {α : Type} {f : α → α} {q : α → Bool} {l : List α}
    (h : ∀ p ∈ l, q (f p) = q p) (h2 : ∀ p ∈ l, q p = true → f p = p) :
    (l.map f).find? q = l.find? q := by
  induction l with
  | nil => rfl
  | cons a t ih =>
    rw [List.map_cons, List.find?_cons, List.find?_cons,
      h a (List.mem_cons_self a t)]
    cases hqa : q a with
    | true => rw [h2 a (List.mem_cons_self a t) hqa]
    | false =>
      exact ih (fun p hp => h p (List.mem_cons_of_mem a hp))
        (fun p hp => h2 p (List.mem_cons_of_mem a hp))

theorem find?_filter_invariant {α : Type} {g q : α → Bool} {l : List α}
    (h : ∀ p ∈ l, q p = true → g p = true) :
    (l.filter g).find? q = l.find? q := by
  induction l with
  | nil => rfl
  | cons a t ih =>
    rw [List.filter_cons, List.find?_cons]
    by_cases hga : g a = true
    · rw [if_pos hga, List.find?_cons]
      cases hqa : q a with
      | true => rfl
      | false =>
        exact ih (fun p hp => h p (List.mem_cons_of_mem a hp))
    · rw [if_neg hga]
      have hqa : q a = false := by
        cases hq : q a with
        | true => exact absurd (h a (List.mem_cons_self a t) hq) hga
        | false => rfl
      rw [hqa]
      exact ih (fun p hp => h p (List.mem_cons_of_mem a hp))

section MapLemmas

variable {κ ν : Type} [BEq κ] [LawfulBEq κ]

theorem find?_replace_self {m : List (κ × ν)} {k : κ} {v : ν}
    (h : m.any (fun p => p.1 == k) = true) :
    (m.map (fun p => if p.1 == k then (k, v) else p)).find? (fun p => p.1 == k)
      = some (k, v) := by
  induction m with
  | nil => cases h
  | cons a t ih =>
    rw [List.map_cons, List.find?_cons]
    by_cases ha : (a.1 == k) = true
    · rw [if_pos ha]
      have : (((k, v) : κ × ν).1 == k) = true := by simp
      rw [this]
    · rw [if_neg ha]
      have ha' : (a.1 == k) = false := Bool.eq_false_iff.mpr ha
      rw [ha']
      rw [List.any_cons, ha'] at h
      simp only [Bool.false_or] at h
      exact ih h

theorem mapGet_set_self (m : List (κ × ν)) (k : κ) (v : ν) :
    mapGet (mapSet m k v) k = some v := by
  unfold mapSet
  by_cases h : m.any (fun p => p.1 == k) = true
  · rw [if_pos h]
    unfold mapGet
    rw [find?_replace_self h]
    rfl
  · rw [if_neg h]
    have hnone : ∀ x ∈ m, ¬((fun p => p.1 == k) x = true) := by
      intro x hx hpx
      exact h (List.any_eq_true.mpr ⟨x, hx, hpx⟩)
    unfold mapGet
    rw [List.find?_append, List.find?_eq_none.mpr hnone]
    simp [List.find?_cons]

theorem mapGet_set_ne (m : List (κ × ν)) {k k' : κ} (v : ν) (h : k' ≠ k) :
    mapGet (mapSet m k v) k' = mapGet m k' := by
  unfold mapSet
  by_cases hc : m.any (fun p => p.1 == k) = true
  · rw [if_pos hc]
    unfold mapGet
    rw [find?_map_invariant ?_ ?_]
    · intro p _
      by_cases hp : (p.1 == k) = true
      · rw [if_pos hp]
        have h1 : ((k, v).1 == k') = false := by
          simp only [beq_eq_false_iff_ne, ne_eq]
          exact fun hEq => h hEq.symm
        have h2 : (p.1 == k') = false := by
          simp only [beq_eq_false_iff_ne, ne_eq]
          intro hEq
          exact h ((eq_of_beq hp) ▸ hEq : k = k').symm
        rw [h1, h2]
      · rw [if_neg hp]
    · intro p _ hpk
      rw [if_neg ?_]
      intro hp
      exact h ((eq_of_beq hp) ▸ (eq_of_beq hpk) : k = k').symm
  · rw [if_neg hc]
    unfold mapGet
    rw [List.find?_append]
    cases hm : m.find? (fun p => p.1 == k') with
    | some p => rfl
    | none =>
      have h1 : (((k, v) : κ × ν).1 == k') = false := by
        simp only [beq_eq_false_iff_ne, ne_eq]
        exact fun hEq => h hEq.symm
      simp [List.find?_cons, h1]

omit [LawfulBEq κ] in
theorem mapGet_delete_self (m : List (κ × ν)) (k : κ) :
    mapGet (mapDelete m k) k = none := by
  unfold mapGet mapDelete
  rw [Option.map_eq_none', List.find?_eq_none]
  intro p hp hpk
  have h2 := (List.mem_filter.mp hp).2
  rw [hpk] at h2
  simp at h2

theorem mapGet_delete_ne (m : List (κ × ν)) {k k' : κ} (h : k' ≠ k) :
    mapGet (mapDelete m k) k' = mapGet m k' := by
  unfold mapGet mapDelete
  rw [find?_filter_invariant ?_]
  intro p _ hpk
  simp only [Bool.not_eq_true']
  rw [Bool.eq_false_iff]
  intro hp
  exact h ((eq_of_beq hp) ▸ (eq_of_beq hpk) : k = k').symm

theorem mapGet_append_single_self (m : List (κ × ν)) (k : κ) (v : ν)
    (h : mapGet m k = none) : mapGet (m ++ [(k, v)]) k = some v := by
  unfold mapGet at h ⊢
  rw [List.find?_append]
  cases hm : m.find? (fun p => p.1 == k) with
  | some p => rw [hm] at h; cases h
  | none => simp [List.find?_cons]

theorem mapGet_append_single_ne (m : List (κ × ν)) {k k' : κ} (v : ν) (h : k' ≠ k) :
    mapGet (m ++ [(k, v)]) k' = mapGet m k' := by
  unfold mapGet
  rw [List.find?_append]
  cases hm : m.find? (fun p => p.1 == k') with
  | some p => rfl
  | none =>
    have h1 : (((k, v)).1 == k') = false := by
      simp only [beq_eq_false_iff_ne, ne_eq]
      exact fun hEq => h hEq.symm
    simp [List.find?_cons, h1]

theorem mapGet_eq_none_iff (m : List (κ × ν)) (k : κ) :
    mapGet m k = none ↔ ∀ p ∈ m, p.1 ≠ k := by
  unfold mapGet
  constructor
  · intro h p hp hEq
    rw [Option.map_eq_none', List.find?_eq_none] at h
    exact h p hp (by simp [hEq])
  · intro h
    rw [Option.map_eq_none', List.find?_eq_none]
    intro p hp hpk
    exact h p hp (eq_of_beq hpk)

theorem mapGet_some_mem {m : List (κ × ν)} {k : κ} {v : ν}
    (h : mapGet m k = some v) : (k, v) ∈ m := by
  unfold mapGet at h
  rw [Option.map_eq_some'] at h
  obtain ⟨⟨p1, p2⟩, hp, hv⟩ := h
  simp only at hv
  subst hv
  have hpk : p1 = k := eq_of_beq (by simpa using List.find?_some hp)
  subst hpk
  exact List.mem_of_find?_eq_some hp

theorem mapSet_keys_nodup (m : List (κ × ν)) (k : κ) (v : ν)
    (h : (m.map Prod.fst).Nodup) : ((mapSet m k v).map Prod.fst).Nodup := by
  unfold mapSet
  by_cases hc : m.any (fun p => p.1 == k) = true
  · rw [if_pos hc]
    have : (m.map (fun p => if p.1 == k then (k, v) else p)).map Prod.fst
        = m.map Prod.fst := by
      rw [List.map_map]
      apply List.map_congr_left
      intro p _
      by_cases hp : (p.1 == k) = true
      · simp only [Function.comp, hp, if_pos]
        exact (eq_of_beq hp).symm
      · simp only [Function.comp]
        rw [if_neg hp]
    rw [this]
    exact h
  · rw [if_neg hc]
    rw [List.map_append]
    simp only [List.map_cons, List.map_nil]
    rw [List.nodup_append]
    refine ⟨h, List.nodup_singleton _, ?_⟩
    intro x hx hx'
    simp only [List.mem_singleton] at hx'
    obtain ⟨p, hp, rfl⟩ := List.mem_map.mp hx
    exact hc (List.any_eq_true.mpr ⟨p, hp, by simp [hx']⟩)

omit [LawfulBEq κ] in
theorem mapDelete_keys_nodup (m : List (κ × ν)) (k : κ)
    (h : (m.map Prod.fst).Nodup) : ((mapDelete m k).map Prod.fst).Nodup := by
  unfold mapDelete
  exact h.sublist ((List.filter_sublist m).map Prod.fst)

omit [LawfulBEq κ] in
theorem mem_mapSet {m : List (κ × ν)} {k : κ} {v : ν} {p : κ × ν}
    (h : p ∈ mapSet m k v) : p = (k, v) ∨ p ∈ m := by
  unfold mapSet at h
  by_cases hc : m.any (fun q => q.1 == k) = true
  · rw [if_pos hc] at h
    obtain ⟨q, hq, hqp⟩ := List.mem_map.mp h
    by_cases hqk : (q.1 == k) = true
    · rw [if_pos hqk] at hqp
      exact Or.inl hqp.symm
    · rw [if_neg hqk] at hqp
      exact Or.inr (hqp ▸ hq)
  · rw [if_neg hc] at h
    rcases List.mem_append.mp h with h' | h'
    · exact Or.inr h'
    · exact Or.inl (List.mem_singleton.mp h')

omit [LawfulBEq κ] in
theorem mem_mapDelete {m : List (κ × ν)} {k : κ} {p : κ × ν}
    (h : p ∈ mapDelete m k) : p ∈ m :=
  (List.mem_filter.mp h).1

end MapLemmas

theorem mem_setDelete {l : List String} {x y : String} :
    x ∈ setDelete l y ↔ x ∈ l ∧ x ≠ y := by
  unfold setDelete
  rw [List.mem_filter]
  simp

theorem mem_setAdd {l : List String} {x y : String} :
    x ∈ setAdd l y ↔ x ∈ l ∨ x = y := by
  unfold setAdd
  by_cases h : l.any (fun z => z == y) = true
  · rw [if_pos h]
    constructor
    · exact Or.inl
    · rintro (hx | rfl)
      · exact hx
      · obtain ⟨z, hz, hzx⟩ := List.any_eq_true.mp h
        exact (eq_of_beq hzx) ▸ hz
  · rw [if_neg h]
    rw [List.mem_append, List.mem_singleton]

theorem setAdd_nodup {l : List String} (h : l.Nodup) (y : String) :
    (setAdd l y).Nodup := by
  unfold setAdd
  by_cases hc : l.any (fun z => z == y) = true
  · rw [if_pos hc]
    exact h
  · rw [if_neg hc]
    rw [List.nodup_append]
    refine ⟨h, List.nodup_singleton _, ?_⟩
    intro x hx hx'
    simp only [List.mem_singleton] at hx'
    exact hc (List.any_eq_true.mpr ⟨x, hx, by simp [hx']⟩)

theorem setDelete_nodup {l : List String} (h : l.Nodup) (y : String) :
    (setDelete l y).Nodup :=
  h.sublist (List.filter_sublist l)

/-! ## Effect of the registry operations on lookups and watcher sets -/

theorem watchers_unsub (s : WSState) (cid : String) (eid : Nat) (x : String) (e' : Nat) :
    x ∈ watchers (unsubscribeFromEvent s cid eid) e'
      ↔ x ∈ watchers s e' ∧ ¬(x = cid ∧ e' = eid) := by
  have hsubs : (unsubscribeFromEvent s cid eid).eventSubscriptions
      = match mapGet s.eventSubscriptions eid with
        | some ws =>
          if (setDelete ws cid).isEmpty then mapDelete s.eventSubscriptions eid
          else mapSet s.eventSubscriptions eid (setDelete ws cid)
        | none => s.eventSubscriptions := rfl
  unfold watchers lookupSubs
  rw [hsubs]
  by_cases he : e' = eid
  · subst he
    cases hget : mapGet s.eventSubscriptions e' with
    | none =>
      simp only [hget]
      simp [Option.getD]
    | some ws =>
      simp only [hget]
      by_cases hemp : (setDelete ws cid).isEmpty = true
      · rw [if_pos hemp]
        rw [mapGet_delete_self]
        have hnil : setDelete ws cid = [] := List.isEmpty_iff.mp hemp
        constructor
        · intro hx
          simp [Option.getD] at hx
        · rintro ⟨hx, hne⟩
          have : x ∈ setDelete ws cid := by
            rw [mem_setDelete]
            refine ⟨by simpa [Option.getD, hget] using hx, ?_⟩
            intro hxe
            exact hne ⟨hxe, by trivial⟩
          rw [hnil] at this
          cases this
      · rw [if_neg hemp]
        rw [mapGet_set_self]
        simp only [Option.getD_some]
        rw [mem_setDelete]
        constructor
        · rintro ⟨hx, hne⟩
          exact ⟨by simp [Option.getD, hget, hx], fun hc => hne hc.1⟩
        · rintro ⟨hx, hne⟩
          refine ⟨by simpa [Option.getD, hget] using hx, ?_⟩
          exact fun hxe => hne ⟨hxe, by trivial⟩
  · cases hget : mapGet s.eventSubscriptions eid with
    | none =>
      simp only [hget]
      simp [he]
    | some ws =>
      simp only [hget]
      by_cases hemp : (setDelete ws cid).isEmpty = true
      · rw [if_pos hemp]
        rw [mapGet_delete_ne _ he]
        simp [he]
      · rw [if_neg hemp]
        rw [mapGet_set_ne _ _ he]
        simp [he]

theorem lookupClient_unsub_self (s : WSState) (cid : String) (eid : Nat) :
    lookupClient (unsubscribeFromEvent s cid eid) cid
      = (lookupClient s cid).map (fun c => { c with eventId := none }) := by
  have hcl : (unsubscribeFromEvent s cid eid).clients
      = match lookupClient s cid with
        | some c => mapSet s.clients cid { c with eventId := none }
        | none => s.clients := rfl
  show mapGet (unsubscribeFromEvent s cid eid).clients cid = _
  rw [hcl]
  cases hc : lookupClient s cid with
  | none => exact hc
  | some c => exact mapGet_set_self s.clients cid _

theorem lookupClient_unsub_ne (s : WSState) (cid : String) (eid : Nat) {x : String}
    (h : x ≠ cid) :
    lookupClient (unsubscribeFromEvent s cid eid) x = lookupClient s x := by
  have hcl : (unsubscribeFromEvent s cid eid).clients
      = match lookupClient s cid with
        | some c => mapSet s.clients cid { c with eventId := none }
        | none => s.clients := rfl
  show mapGet (unsubscribeFromEvent s cid eid).clients x = _
  rw [hcl]
  cases hc : lookupClient s cid with
  | none => rfl
  | some c => exact mapGet_set_ne s.clients _ h

theorem lookupClient_remove_self (s : WSState) (cid : String) :
    lookupClient (removeClient s cid) cid = none := by
  unfold removeClient
  exact mapGet_delete_self _ cid

theorem lookupClient_remove_ne (s : WSState) (cid : String) {x : String} (h : x ≠ cid) :
    lookupClient (removeClient s cid) x = lookupClient s x := by
  unfold removeClient
  show mapGet (mapDelete _ cid) x = _
  rw [mapGet_delete_ne _ h]
  cases hc : lookupClient s cid with
  | none => rfl
  | some c =>
    dsimp only
    cases he : c.eventId with
    | none => rfl
    | some e =>
      dsimp only
      by_cases h0 : (e != 0) = true
      · rw [if_pos h0]
        exact lookupClient_unsub_ne s cid e h
      · rw [if_neg h0]
        rfl

theorem watchers_remove_sub (s : WSState) (cid : String) {x : String} {e : Nat}
    (h : x ∈ watchers (removeClient s cid) e) : x ∈ watchers s e := by
  unfold removeClient at h
  have hw : x ∈ watchers
      (match lookupClient s cid with
        | some c =>
          match c.eventId with
          | some e => if e != 0 then unsubscribeFromEvent s cid e else s
          | none => s
        | none => s) e := h
  cases hc : lookupClient s cid with
  | none =>
    rw [hc] at hw
    exact hw
  | some c =>
    rw [hc] at hw
    dsimp only at hw
    cases he : c.eventId with
    | none =>
      rw [he] at hw
      exact hw
    | some e0 =>
      rw [he] at hw
      dsimp only at hw
      by_cases h0 : (e0 != 0) = true
      · rw [if_pos h0] at hw
        exact ((watchers_unsub s cid e0 x e).mp hw).1
      · rw [if_neg h0] at hw
        exact hw

theorem removeClient_clears (s : WSState) (cid : String) (c : WSClient) (eid0 : Nat)
    (hrec : lookupClient s cid = some c) (heid : c.eventId = some eid0)
    (h0 : eid0 ≠ 0) (hwatch : ∀ e', cid ∈ watchers s e' → e' = eid0) :
    (∀ e', cid ∉ watchers (removeClient s cid) e') ∧
    lookupClient (removeClient s cid) cid = none := by
  constructor
  · intro e' hmem
    unfold removeClient at hmem
    rw [hrec] at hmem
    dsimp only at hmem
    rw [heid] at hmem
    dsimp only at hmem
    rw [if_pos (by simp [h0])] at hmem
    have hw : cid ∈ watchers (unsubscribeFromEvent s cid eid0) e' := hmem
    obtain ⟨hin, hne⟩ := (watchers_unsub s cid eid0 cid e').mp hw
    exact hne ⟨rfl, hwatch e' hin⟩
  · exact lookupClient_remove_self s cid

/-! ## The broadcast delivery loop -/
theorem broadcastStep_none (acc : BroadcastAcc) (y : String)
    (h : lookupClient acc.state y = none) : broadcastStep acc y = acc := by
  unfold broadcastStep
  rw [h]

theorem broadcastStep_fail (acc : BroadcastAcc) (y : String) {c : WSClient}
    (h : lookupClient acc.state y = some c) (hf : c.sendFails = true) :
    broadcastStep acc y
      = { acc with state := removeClient acc.state y,
                   attempted := acc.attempted ++ [y] } := by
  unfold broadcastStep
  rw [h]
  dsimp only
  rw [if_pos hf]

theorem broadcastStep_ok (acc : BroadcastAcc) (y : String) {c : WSClient}
    (h : lookupClient acc.state y = some c) (hf : c.sendFails = false) :
    broadcastStep acc y
      = { state := acc.state, attempted := acc.attempted ++ [y],
          delivered := acc.delivered ++ [y], sentCount := acc.sentCount + 1 } := by
  unfold broadcastStep
  rw [h]
  dsimp only
  rw [if_neg (by rw [hf]; exact fun hx => Bool.false_ne_true hx)]

theorem bfold_attempted_mono (l : List String) (acc : BroadcastAcc) {x : String}
    (h : x ∈ acc.attempted) : x ∈ (l.foldl broadcastStep acc).attempted := by
  induction l generalizing acc with
  | nil => exact h
  | cons y t ih =>
    rw [List.foldl_cons]
    refine ih _ ?_
    rcases hcy : lookupClient acc.state y with _ | c
    · rw [broadcastStep_none acc y hcy]
      exact h
    · by_cases hf : c.sendFails = true
      · rw [broadcastStep_fail acc y hcy hf]
        exact List.mem_append.mpr (Or.inl h)
      · rw [broadcastStep_ok acc y hcy (Bool.eq_false_iff.mpr hf)]
        exact List.mem_append.mpr (Or.inl h)

theorem bfold_delivered_mono (l : List String) (acc : BroadcastAcc) {x : String}
    (h : x ∈ acc.delivered) : x ∈ (l.foldl broadcastStep acc).delivered := by
  induction l generalizing acc with
  | nil => exact h
  | cons y t ih =>
    rw [List.foldl_cons]
    refine ih _ ?_
    rcases hcy : lookupClient acc.state y with _ | c
    · rw [broadcastStep_none acc y hcy]
      exact h
    · by_cases hf : c.sendFails = true
      · rw [broadcastStep_fail acc y hcy hf]
        exact h
      · rw [broadcastStep_ok acc y hcy (Bool.eq_false_iff.mpr hf)]
        exact List.mem_append.mpr (Or.inl h)

theorem bstep_lookup_ne (acc : BroadcastAcc) (y : String) {x : String} (h : x ≠ y) :
    lookupClient (broadcastStep acc y).state x = lookupClient acc.state x := by
  rcases hcy : lookupClient acc.state y with _ | c
  · rw [broadcastStep_none acc y hcy]
  · by_cases hf : c.sendFails = true
    · rw [broadcastStep_fail acc y hcy hf]
      exact lookupClient_remove_ne acc.state y h
    · rw [broadcastStep_ok acc y hcy (Bool.eq_false_iff.mpr hf)]

theorem bstep_watchers_sub (acc : BroadcastAcc) (y : String) {x : String} {e : Nat}
    (h : x ∈ watchers (broadcastStep acc y).state e) : x ∈ watchers acc.state e := by
  rcases hcy : lookupClient acc.state y with _ | c
  · rw [broadcastStep_none acc y hcy] at h
    exact h
  · by_cases hf : c.sendFails = true
    · rw [broadcastStep_fail acc y hcy hf] at h
      exact watchers_remove_sub acc.state y h
    · rw [broadcastStep_ok acc y hcy (Bool.eq_false_iff.mpr hf)] at h
      exact h

theorem bfold_none_pres (l : List String) (acc : BroadcastAcc) (cid : String)
    (hn : lookupClient acc.state cid = none)
    (hw : ∀ e', cid ∉ watchers acc.state e') :
    lookupClient ((l.foldl broadcastStep acc)).state cid = none ∧
    ∀ e', cid ∉ watchers ((l.foldl broadcastStep acc)).state e' := by
  induction l generalizing acc with
  | nil => exact ⟨hn, hw⟩
  | cons y t ih =>
    rw [List.foldl_cons]
    by_cases hy : cid = y
    · subst hy
      rw [broadcastStep_none acc cid hn]
      exact ih acc hn hw
    · refine ih _ ?_ ?_
      · rw [bstep_lookup_ne acc y hy]
        exact hn
      · intro e' hmem
        exact hw e' (bstep_watchers_sub acc y hmem)

theorem bfold_attempted_none (l : List String) (acc : BroadcastAcc) (cid : String)
    (hn : lookupClient acc.state cid = none) (ha : cid ∉ acc.attempted) :
    cid ∉ (l.foldl broadcastStep acc).attempted := by
  induction l generalizing acc with
  | nil => exact ha
  | cons y t ih =>
    rw [List.foldl_cons]
    by_cases hy : cid = y
    · subst hy
      rw [broadcastStep_none acc cid hn]
      exact ih acc hn ha
    · refine ih _ ?_ ?_
      · rw [bstep_lookup_ne acc y hy]
        exact hn
      · rcases hcy : lookupClient acc.state y with _ | c
        · rw [broadcastStep_none acc y hcy]
          exact ha
        · have hnotin : cid ∉ acc.attempted ++ [y] := by
            intro hmem
            rcases List.mem_append.mp hmem with h' | h'
            · exact ha h'
            · exact hy (List.mem_singleton.mp h')
          by_cases hf : c.sendFails = true
          · rw [broadcastStep_fail acc y hcy hf]
            exact hnotin
          · rw [broadcastStep_ok acc y hcy (Bool.eq_false_iff.mpr hf)]
            exact hnotin

theorem bfold_attempted_sub (l : List String) (acc : BroadcastAcc) :
    ∀ x ∈ (l.foldl broadcastStep acc).attempted, x ∈ acc.attempted ∨ x ∈ l := by
  induction l generalizing acc with
  | nil => exact fun x hx => Or.inl hx
  | cons y t ih =>
    intro x hx
    rw [List.foldl_cons] at hx
    rcases ih (broadcastStep acc y) x hx with h' | h'
    · rcases hcy : lookupClient acc.state y with _ | c
      · rw [broadcastStep_none acc y hcy] at h'
        exact Or.inl h'
      · have hsplit : x ∈ acc.attempted ++ [y] → x ∈ acc.attempted ∨ x ∈ y :: t := by
          intro hmem
          rcases List.mem_append.mp hmem with h'' | h''
          · exact Or.inl h''
          · exact Or.inr (List.mem_cons.mpr (Or.inl (List.mem_singleton.mp h'')))
        by_cases hf : c.sendFails = true
        · rw [broadcastStep_fail acc y hcy hf] at h'
          exact hsplit h'
        · rw [broadcastStep_ok acc y hcy (Bool.eq_false_iff.mpr hf)] at h'
          exact hsplit h'
    · exact Or.inr (List.mem_cons_of_mem y h')

theorem bfold_delivered_sub (l : List String) (acc : BroadcastAcc) :
    ∀ x ∈ (l.foldl broadcastStep acc).delivered, x ∈ acc.delivered ∨ x ∈ l := by
  induction l generalizing acc with
  | nil => exact fun x hx => Or.inl hx
  | cons y t ih =>
    intro x hx
    rw [List.foldl_cons] at hx
    rcases ih (broadcastStep acc y) x hx with h' | h'
    · rcases hcy : lookupClient acc.state y with _ | c
      · rw [broadcastStep_none acc y hcy] at h'
        exact Or.inl h'
      · by_cases hf : c.sendFails = true
        · rw [broadcastStep_fail acc y hcy hf] at h'
          exact Or.inl h'
        · rw [broadcastStep_ok acc y hcy (Bool.eq_false_iff.mpr hf)] at h'
          rcases List.mem_append.mp h' with h'' | h''
          · exact Or.inl h''
          · exact Or.inr (List.mem_cons.mpr (Or.inl (List.mem_singleton.mp h'')))
    · exact Or.inr (List.mem_cons_of_mem y h')

theorem bfold_attempts (l : List String) (acc : BroadcastAcc) {x : String} {c : WSClient}
    (hm : x ∈ l) (hr : lookupClient acc.state x = some c) :
    x ∈ (l.foldl broadcastStep acc).attempted := by
  induction l generalizing acc c with
  | nil => cases hm
  | cons y t ih =>
    rw [List.foldl_cons]
    by_cases hy : y = x
    · subst hy
      have hmm : y ∈ (broadcastStep acc y).attempted := by
        by_cases hf : c.sendFails = true
        · rw [broadcastStep_fail acc y hr hf]
          exact List.mem_append.mpr (Or.inr (List.mem_singleton.mpr rfl))
        · rw [broadcastStep_ok acc y hr (Bool.eq_false_iff.mpr hf)]
          exact List.mem_append.mpr (Or.inr (List.mem_singleton.mpr rfl))
      exact bfold_attempted_mono t _ hmm
    · have hm' : x ∈ t := by
        rcases List.mem_cons.mp hm with rfl | h'
        · exact absurd rfl hy
        · exact h'
      refine ih _ (c := c) hm' ?_
      rw [bstep_lookup_ne acc y (fun hEq => hy hEq.symm)]
      exact hr

theorem bfold_delivers (l : List String) (acc : BroadcastAcc) {x : String} {c : WSClient}
    (hm : x ∈ l) (hr : lookupClient acc.state x = some c) (hok : c.sendFails = false) :
    x ∈ (l.foldl broadcastStep acc).delivered := by
  induction l generalizing acc c with
  | nil => cases hm
  | cons y t ih =>
    rw [List.foldl_cons]
    by_cases hy : y = x
    · subst hy
      have hmm : y ∈ (broadcastStep acc y).delivered := by
        rw [broadcastStep_ok acc y hr hok]
        exact List.mem_append.mpr (Or.inr (List.mem_singleton.mpr rfl))
      exact bfold_delivered_mono t _ hmm
    · have hm' : x ∈ t := by
        rcases List.mem_cons.mp hm with rfl | h'
        · exact absurd rfl hy
        · exact h'
      refine ih _ (c := c) hm' ?_ hok
      rw [bstep_lookup_ne acc y (fun hEq => hy hEq.symm)]
      exact hr

theorem bfold_count (l : List String) (acc : BroadcastAcc)
    (h : acc.sentCount = acc.delivered.length) :
    (l.foldl broadcastStep acc).sentCount
      = (l.foldl broadcastStep acc).delivered.length := by
  induction l generalizing acc with
  | nil => exact h
  | cons y t ih =>
    rw [List.foldl_cons]
    refine ih _ ?_
    rcases hcy : lookupClient acc.state y with _ | c
    · rw [broadcastStep_none acc y hcy]
      exact h
    · by_cases hf : c.sendFails = true
      · rw [broadcastStep_fail acc y hcy hf]
        exact h
      · rw [broadcastStep_ok acc y hcy (Bool.eq_false_iff.mpr hf)]
        dsimp only
        rw [List.length_append, h]
        rfl

theorem bfold_removes (l : List String) (acc : BroadcastAcc) (cid : String)
    (c : WSClient) (eid0 : Nat)
    (hm : cid ∈ l) (hr : lookupClient acc.state cid = some c)
    (hf : c.sendFails = true) (he : c.eventId = some eid0) (h0 : eid0 ≠ 0)
    (hw : ∀ e', cid ∈ watchers acc.state e' → e' = eid0) :
    lookupClient ((l.foldl broadcastStep acc)).state cid = none ∧
    ∀ e', cid ∉ watchers ((l.foldl broadcastStep acc)).state e' := by
  induction l generalizing acc with
  | nil => cases hm
  | cons y t ih =>
    rw [List.foldl_cons]
    by_cases hy : y = cid
    · subst hy
      obtain ⟨hcl, hlook⟩ := removeClient_clears acc.state y c eid0 hr he h0 hw
      rw [broadcastStep_fail acc y hr hf]
      exact bfold_none_pres t _ y hlook hcl
    · have hm' : cid ∈ t := by
        rcases List.mem_cons.mp hm with rfl | h'
        · exact absurd rfl hy
        · exact h'
      refine ih _ hm' ?_ ?_
      · rw [bstep_lookup_ne acc y (fun hEq => hy hEq.symm)]
        exact hr
      · intro e' hmem
        exact hw e' (bstep_watchers_sub acc y hmem)
/-! ## Preservation of the registry invariant -/

theorem WSInv_empty : WSInv wsEmpty := by
  refine ⟨List.nodup_nil, List.nodup_nil, ?_, ?_, ?_⟩
  · intro p hp
    cases hp
  · intro cid c hc
    cases hc
  · intro cid e
    constructor
    · intro hmem
      cases hmem
    · rintro ⟨c, hc, -⟩
      cases hc

theorem watchers_addClient (s : WSState) (cid : String) (c : WSClient) (e : Nat) :
    watchers (addClient s cid c) e = watchers s e := rfl

theorem WSInv_add (s : WSState) (cid : String) (uid : Nat) (fails : Bool)
    (h : WSInv s) (hfresh : lookupClient s cid = none) :
    WSInv (addClient s cid ⟨uid, none, fails⟩) := by
  obtain ⟨hA, hB, hC, hD, hE⟩ := h
  refine ⟨?_, hB, hC, ?_, ?_⟩
  · exact mapSet_keys_nodup s.clients cid _ hA
  · intro x cx hx
    by_cases hxc : x = cid
    · subst hxc
      have : lookupClient (addClient s x ⟨uid, none, fails⟩) x
          = some ⟨uid, none, fails⟩ := mapGet_set_self s.clients x _
      rw [this] at hx
      cases hx
      intro hz
      cases hz
    · have : lookupClient (addClient s cid ⟨uid, none, fails⟩) x = lookupClient s x :=
        mapGet_set_ne s.clients _ hxc
      rw [this] at hx
      exact hD x cx hx
  · intro x e
    rw [watchers_addClient]
    by_cases hxc : x = cid
    · subst hxc
      constructor
      · intro hmem
        obtain ⟨c', hc', -⟩ := (hE x e).mp hmem
        rw [hfresh] at hc'
        cases hc'
      · rintro ⟨c', hc', he'⟩
        have hset : lookupClient (addClient s x ⟨uid, none, fails⟩) x
            = some ⟨uid, none, fails⟩ := mapGet_set_self s.clients x _
        rw [hset] at hc'
        cases hc'
        cases he'
    · have hlk : lookupClient (addClient s cid ⟨uid, none, fails⟩) x = lookupClient s x :=
        mapGet_set_ne s.clients _ hxc
      rw [hlk]
      exact hE x e

theorem WSInv_unsub (s : WSState) (cid : String) (eid : Nat) (h : WSInv s)
    (hguard : ∀ c, lookupClient s cid = some c →
      c.eventId = none ∨ c.eventId = some eid) :
    WSInv (unsubscribeFromEvent s cid eid) := by
  obtain ⟨hA, hB, hC, hD, hE⟩ := h
  have hclshape : (unsubscribeFromEvent s cid eid).clients
      = match lookupClient s cid with
        | some c => mapSet s.clients cid { c with eventId := none }
        | none => s.clients := rfl
  have hsubshape : (unsubscribeFromEvent s cid eid).eventSubscriptions
      = match mapGet s.eventSubscriptions eid with
        | some ws =>
          if (setDelete ws cid).isEmpty then mapDelete s.eventSubscriptions eid
          else mapSet s.eventSubscriptions eid (setDelete ws cid)
        | none => s.eventSubscriptions := rfl
  refine ⟨?_, ?_, ?_, ?_, ?_⟩
  · rw [hclshape]
    cases lookupClient s cid with
    | none => exact hA
    | some c => exact mapSet_keys_nodup s.clients cid _ hA
  · rw [hsubshape]
    cases mapGet s.eventSubscriptions eid with
    | none => exact hB
    | some ws =>
      dsimp only
      by_cases hemp : (setDelete ws cid).isEmpty = true
      · rw [if_pos hemp]
        exact mapDelete_keys_nodup s.eventSubscriptions eid hB
      · rw [if_neg hemp]
        exact mapSet_keys_nodup s.eventSubscriptions eid _ hB
  · intro p hp
    rw [hsubshape] at hp
    cases hget : mapGet s.eventSubscriptions eid with
    | none =>
      rw [hget] at hp
      exact hC p hp
    | some ws =>
      rw [hget] at hp
      dsimp only at hp
      by_cases hemp : (setDelete ws cid).isEmpty = true
      · rw [if_pos hemp] at hp
        exact hC p (mem_mapDelete hp)
      · rw [if_neg hemp] at hp
        rcases mem_mapSet hp with rfl | hp'
        · exact setDelete_nodup (hC _ (mapGet_some_mem hget)) cid
        · exact hC p hp'
  · intro x cx hx
    by_cases hxc : x = cid
    · subst hxc
      rw [lookupClient_unsub_self] at hx
      rw [Option.map_eq_some'] at hx
      obtain ⟨c0, -, hc0⟩ := hx
      rw [← hc0]
      intro hz
      cases hz
    · rw [lookupClient_unsub_ne s cid eid hxc] at hx
      exact hD x cx hx
  · intro x e
    rw [watchers_unsub]
    by_cases hxc : x = cid
    · subst hxc
      constructor
      · rintro ⟨hmem, hne⟩
        obtain ⟨c0, hc0, he0⟩ := (hE x e).mp hmem
        rcases hguard c0 hc0 with hg | hg
        · rw [hg] at he0
          cases he0
        · rw [hg] at he0
          cases he0
          exact absurd ⟨rfl, rfl⟩ hne
      · rintro ⟨c', hc', he'⟩
        rw [lookupClient_unsub_self] at hc'
        rw [Option.map_eq_some'] at hc'
        obtain ⟨c0, -, hc0⟩ := hc'
        rw [← hc0] at he'
        cases he'
    · constructor
      · rintro ⟨hmem, -⟩
        rw [lookupClient_unsub_ne s cid eid hxc]
        exact (hE x e).mp hmem
      · intro hrec
        rw [lookupClient_unsub_ne s cid eid hxc] at hrec
        refine ⟨(hE x e).mpr hrec, ?_⟩
        rintro ⟨rfl, -⟩
        exact hxc rfl

theorem WSInv_delete_record (s : WSState) (cid : String) (h : WSInv s)
    (hnw : ∀ e', cid ∉ watchers s e') :
    WSInv { s with clients := mapDelete s.clients cid } := by
  obtain ⟨hA, hB, hC, hD, hE⟩ := h
  refine ⟨mapDelete_keys_nodup s.clients cid hA, hB, hC, ?_, ?_⟩
  · intro x cx hx
    by_cases hxc : x = cid
    · subst hxc
      have : lookupClient { s with clients := mapDelete s.clients x } x = none :=
        mapGet_delete_self s.clients x
      rw [this] at hx
      cases hx
    · have : lookupClient { s with clients := mapDelete s.clients cid } x
          = lookupClient s x := mapGet_delete_ne s.clients hxc
      rw [this] at hx
      exact hD x cx hx
  · intro x e
    have hw : watchers { s with clients := mapDelete s.clients cid } e
        = watchers s e := rfl
    rw [hw]
    by_cases hxc : x = cid
    · subst hxc
      constructor
      · intro hmem
        exact absurd hmem (hnw e)
      · rintro ⟨c', hc', -⟩
        have : lookupClient { s with clients := mapDelete s.clients x } x = none :=
          mapGet_delete_self s.clients x
        rw [this] at hc'
        cases hc'
    · have : lookupClient { s with clients := mapDelete s.clients cid } x
          = lookupClient s x := mapGet_delete_ne s.clients hxc
      rw [this]
      exact hE x e

theorem WSInv_remove (s : WSState) (cid : String) (h : WSInv s) :
    WSInv (removeClient s cid) := by
  have hEkeep := h
  obtain ⟨hA, hB, hC, hD, hE⟩ := h
  unfold removeClient
  cases hc : lookupClient s cid with
  | none =>
    dsimp only
    refine WSInv_delete_record s cid hEkeep ?_
    intro e' hmem
    obtain ⟨c', hc', -⟩ := (hE cid e').mp hmem
    rw [hc] at hc'
    cases hc'
  | some c =>
    dsimp only
    cases he : c.eventId with
    | none =>
      dsimp only
      refine WSInv_delete_record s cid hEkeep ?_
      intro e' hmem
      obtain ⟨c', hc', he'⟩ := (hE cid e').mp hmem
      rw [hc] at hc'
      cases hc'
      rw [he] at he'
      cases he'
    | some e0 =>
      dsimp only
      have h0 : e0 ≠ 0 := by
        intro hz
        subst hz
        exact hD cid c hc he
      rw [if_pos (by simp [h0])]
      have hguard : ∀ c', lookupClient s cid = some c' →
          c'.eventId = none ∨ c'.eventId = some e0 := by
        intro c' hc'
        rw [hc] at hc'
        cases hc'
        exact Or.inr he
      have h1 : WSInv (unsubscribeFromEvent s cid e0) := WSInv_unsub s cid e0 hEkeep hguard
      refine WSInv_delete_record _ cid h1 ?_
      intro e' hmem
      obtain ⟨hin, hne⟩ := (watchers_unsub s cid e0 cid e').mp hmem
      obtain ⟨c', hc', he'⟩ := (hE cid e').mp hin
      rw [hc] at hc'
      cases hc'
      rw [he] at he'
      cases he'
      exact hne ⟨rfl, rfl⟩

theorem WSInv_subscribeFinish (s1 : WSState) (cid : String) (eid : Nat) (c1 : WSClient)
    (h1 : WSInv s1) (hrec : lookupClient s1 cid = some c1)
    (hnw : ∀ e', cid ∉ watchers s1 e') (h0 : eid ≠ 0) :
    WSInv (subscribeFinish s1 cid eid) := by
  obtain ⟨hA, hB, hC, hD, hE⟩ := h1
  unfold subscribeFinish
  rw [hrec]
  dsimp only
  have hlk_self : mapGet (mapSet s1.clients cid { c1 with eventId := some eid }) cid
      = some { c1 with eventId := some eid } := mapGet_set_self s1.clients cid _
  have hlk_ne : ∀ x, x ≠ cid →
      mapGet (mapSet s1.clients cid { c1 with eventId := some eid }) x
        = lookupClient s1 x := fun x hx => mapGet_set_ne s1.clients _ hx
  cases hget : mapGet s1.eventSubscriptions eid with
  | some ws =>
    dsimp only
    have hwsmem := mapGet_some_mem hget
    refine ⟨mapSet_keys_nodup s1.clients cid _ hA,
      mapSet_keys_nodup s1.eventSubscriptions eid _ hB, ?_, ?_, ?_⟩
    · intro p hp
      rcases mem_mapSet hp with rfl | hp'
      · exact setAdd_nodup (hC _ hwsmem) cid
      · exact hC p hp'
    · intro x cx hx
      by_cases hxc : x = cid
      · subst hxc
        rw [show lookupClient { s1 with
              clients := mapSet s1.clients x { c1 with eventId := some eid },
              eventSubscriptions := mapSet s1.eventSubscriptions eid (setAdd ws x) } x
            = mapGet (mapSet s1.clients x { c1 with eventId := some eid }) x from rfl,
          hlk_self] at hx
        cases hx
        intro hz
        cases hz
        exact h0 rfl
      · rw [show lookupClient { s1 with
              clients := mapSet s1.clients cid { c1 with eventId := some eid },
              eventSubscriptions := mapSet s1.eventSubscriptions eid (setAdd ws cid) } x
            = mapGet (mapSet s1.clients cid { c1 with eventId := some eid }) x from rfl,
          hlk_ne x hxc] at hx
        exact hD x cx hx
    · intro x e
      have hwshape : watchers { s1 with
            clients := mapSet s1.clients cid { c1 with eventId := some eid },
            eventSubscriptions := mapSet s1.eventSubscriptions eid (setAdd ws cid) } e
          = (mapGet (mapSet s1.eventSubscriptions eid (setAdd ws cid)) e).getD [] := rfl
      have hlshape : lookupClient { s1 with
            clients := mapSet s1.clients cid { c1 with eventId := some eid },
            eventSubscriptions := mapSet s1.eventSubscriptions eid (setAdd ws cid) } x
          = mapGet (mapSet s1.clients cid { c1 with eventId := some eid }) x := rfl
      rw [hwshape, hlshape]
      by_cases hee : e = eid
      · subst hee
        rw [mapGet_set_self]
        simp only [Option.getD_some]
        rw [mem_setAdd]
        by_cases hxc : x = cid
        · subst hxc
          rw [hlk_self]
          constructor
          · intro _
            exact ⟨{ c1 with eventId := some e }, rfl, rfl⟩
          · intro _
            exact Or.inr rfl
        · rw [hlk_ne x hxc]
          constructor
          · rintro (hin | rfl)
            · have : x ∈ watchers s1 e := by
                unfold watchers lookupSubs
                rw [hget]
                exact hin
              exact (hE x e).mp this
            · exact absurd rfl hxc
          · intro hrec'
            have := (hE x e).mpr hrec'
            unfold watchers lookupSubs at this
            rw [hget] at this
            exact Or.inl this
      · rw [mapGet_set_ne _ _ hee]
        by_cases hxc : x = cid
        · subst hxc
          rw [hlk_self]
          constructor
          · intro hin
            have : x ∈ watchers s1 e := by
              unfold watchers lookupSubs
              exact hin
            exact absurd this (hnw e)
          · rintro ⟨c', hc', he'⟩
            cases hc'
            cases he'
            exact absurd rfl hee
        · rw [hlk_ne x hxc]
          have : watchers s1 e = (mapGet s1.eventSubscriptions e).getD [] := rfl
          rw [← this]
          exact hE x e
  | none =>
    dsimp only
    have heidfresh : ∀ p ∈ s1.eventSubscriptions, p.1 ≠ eid :=
      (mapGet_eq_none_iff s1.eventSubscriptions eid).mp hget
    refine ⟨mapSet_keys_nodup s1.clients cid _ hA, ?_, ?_, ?_, ?_⟩
    · rw [List.map_append]
      simp only [List.map_cons, List.map_nil]
      rw [List.nodup_append]
      refine ⟨hB, List.nodup_singleton _, ?_⟩
      intro k hk hk'
      simp only [List.mem_singleton] at hk'
      obtain ⟨p, hp, rfl⟩ := List.mem_map.mp hk
      exact heidfresh p hp hk'
    · intro p hp
      rcases List.mem_append.mp hp with hp' | hp'
      · exact hC p hp'
      · rw [List.mem_singleton] at hp'
        subst hp'
        exact List.nodup_singleton _
    · intro x cx hx
      by_cases hxc : x = cid
      · subst hxc
        rw [show lookupClient { s1 with
              clients := mapSet s1.clients x { c1 with eventId := some eid },
              eventSubscriptions := s1.eventSubscriptions ++ [(eid, [x])] } x
            = mapGet (mapSet s1.clients x { c1 with eventId := some eid }) x from rfl,
          hlk_self] at hx
        cases hx
        intro hz
        cases hz
        exact h0 rfl
      · rw [show lookupClient { s1 with
              clients := mapSet s1.clients cid { c1 with eventId := some eid },
              eventSubscriptions := s1.eventSubscriptions ++ [(eid, [cid])] } x
            = mapGet (mapSet s1.clients cid { c1 with eventId := some eid }) x from rfl,
          hlk_ne x hxc] at hx
        exact hD x cx hx
    · intro x e
      have hwshape : watchers { s1 with
            clients := mapSet s1.clients cid { c1 with eventId := some eid },
            eventSubscriptions := s1.eventSubscriptions ++ [(eid, [cid])] } e
          = (mapGet (s1.eventSubscriptions ++ [(eid, [cid])]) e).getD [] := rfl
      have hlshape : lookupClient { s1 with
            clients := mapSet s1.clients cid { c1 with eventId := some eid },
            eventSubscriptions := s1.eventSubscriptions ++ [(eid, [cid])] } x
          = mapGet (mapSet s1.clients cid { c1 with eventId := some eid }) x := rfl
      rw [hwshape, hlshape]
      by_cases hee : e = eid
      · subst hee
        rw [mapGet_append_single_self s1.eventSubscriptions e _ hget]
        simp only [Option.getD_some]
        by_cases hxc : x = cid
        · subst hxc
          rw [hlk_self]
          constructor
          · intro _
            exact ⟨{ c1 with eventId := some e }, rfl, rfl⟩
          · intro _
            exact List.mem_singleton.mpr rfl
        · rw [hlk_ne x hxc]
          constructor
          · intro hin
            exact absurd (List.mem_singleton.mp hin) hxc
          · intro hrec'
            have := (hE x e).mpr hrec'
            unfold watchers lookupSubs at this
            rw [hget] at this
            cases this
      · rw [mapGet_append_single_ne s1.eventSubscriptions _ hee]
        by_cases hxc : x = cid
        · subst hxc
          rw [hlk_self]
          constructor
          · intro hin
            have : x ∈ watchers s1 e := by
              unfold watchers lookupSubs
              exact hin
            exact absurd this (hnw e)
          · rintro ⟨c', hc', he'⟩
            cases hc'
            cases he'
            exact absurd rfl hee
        · rw [hlk_ne x hxc]
          have : watchers s1 e = (mapGet s1.eventSubscriptions e).getD [] := rfl
          rw [← this]
          exact hE x e

theorem WSInv_sub (s : WSState) (cid : String) (eid : Nat) (h : WSInv s)
    (h0 : eid ≠ 0) : WSInv (subscribeToEvent s cid eid) := by
  have hkeep := h
  obtain ⟨hA, hB, hC, hD, hE⟩ := h
  unfold subscribeToEvent
  cases hc : lookupClient s cid with
  | none => exact hkeep
  | some c =>
    dsimp only
    cases he : c.eventId with
    | none =>
      dsimp only
      refine WSInv_subscribeFinish s cid eid c hkeep hc ?_ h0
      intro e' hmem
      obtain ⟨c', hc', he'⟩ := (hE cid e').mp hmem
      rw [hc] at hc'
      cases hc'
      rw [he] at he'
      cases he'
    | some prev =>
      dsimp only
      have hprev0 : prev ≠ 0 := by
        intro hz
        subst hz
        exact hD cid c hc he
      rw [if_pos (by simp [hprev0])]
      have hguard : ∀ c', lookupClient s cid = some c' →
          c'.eventId = none ∨ c'.eventId = some prev := by
        intro c' hc'
        rw [hc] at hc'
        cases hc'
        exact Or.inr he
      have h1 : WSInv (unsubscribeFromEvent s cid prev) :=
        WSInv_unsub s cid prev hkeep hguard
      have hrec1 : lookupClient (unsubscribeFromEvent s cid prev) cid
          = some { c with eventId := none } := by
        rw [lookupClient_unsub_self, hc]
        rfl
      refine WSInv_subscribeFinish _ cid eid _ h1 hrec1 ?_ h0
      intro e' hmem
      obtain ⟨hin, hne⟩ := (watchers_unsub s cid prev cid e').mp hmem
      obtain ⟨c', hc', he'⟩ := (hE cid e').mp hin
      rw [hc] at hc'
      cases hc'
      rw [he] at he'
      cases he'
      exact hne ⟨rfl, rfl⟩

theorem WSInv_bstep (acc : BroadcastAcc) (y : String) (h : WSInv acc.state) :
    WSInv (broadcastStep acc y).state := by
  rcases hcy : lookupClient acc.state y with _ | c
  · rw [broadcastStep_none acc y hcy]
    exact h
  · by_cases hf : c.sendFails = true
    · rw [broadcastStep_fail acc y hcy hf]
      exact WSInv_remove acc.state y h
    · rw [broadcastStep_ok acc y hcy (Bool.eq_false_iff.mpr hf)]
      exact h

theorem WSInv_bfold (l : List String) (acc : BroadcastAcc) (h : WSInv acc.state) :
    WSInv (l.foldl broadcastStep acc).state := by
  induction l generalizing acc with
  | nil => exact h
  | cons y t ih =>
    rw [List.foldl_cons]
    exact ih _ (WSInv_bstep acc y h)

theorem WSInv_broadcast (s : WSState) (eid : Nat) (msg : String) (h : WSInv s) :
    WSInv (broadcastToEvent s eid msg).state := by
  unfold broadcastToEvent
  cases hget : lookupSubs s eid with
  | none => exact h
  | some wl =>
    dsimp only
    exact WSInv_bfold wl ⟨s, [], [], 0⟩ h

theorem WSInv_applyWSOp (s : WSState) (op : WSOp) (h : WSInv s)
    (hg : GoodOp s op) : WSInv (applyWSOp s op) := by
  cases op with
  | add cid uid ev fails =>
    obtain ⟨hfresh, hev⟩ := hg
    subst hev
    exact WSInv_add s cid uid fails h hfresh
  | sub cid eid => exact WSInv_sub s cid eid h hg
  | unsub cid eid => exact WSInv_unsub s cid eid h hg
  | remove cid => exact WSInv_remove s cid h
  | bcast eid msg => exact WSInv_broadcast s eid msg h

theorem WSInv_applyWSOps (s : WSState) (ops : List WSOp) (h : WSInv s)
    (hg : GoodSeq s ops) : WSInv (applyWSOps s ops) := by
  induction ops generalizing s with
  | nil => exact h
  | cons op rest ih =>
    obtain ⟨hop, hrest⟩ := hg
    exact ih (applyWSOp s op) (WSInv_applyWSOp s op h hop) hrest

/-! ## A decidable sufficient condition for the registry invariant -/

theorem WSInv_of_checks (s : WSState)
    (hA : (s.clients.map Prod.fst).Nodup)
    (hB : (s.eventSubscriptions.map Prod.fst).Nodup)
    (hC : ∀ p ∈ s.eventSubscriptions, p.2.Nodup)
    (hDb : s.clients.all (fun q => q.2.eventId != some 0) = true)
    (hfwd : s.eventSubscriptions.all (fun p => p.2.all (fun cid =>
        match mapGet s.clients cid with
        | some c => c.eventId == some p.1
        | none => false)) = true)
    (hrev : s.clients.all (fun q =>
        match q.2.eventId with
        | some e => (watchers s e).any (fun z => z == q.1)
        | none => true) = true) : WSInv s := by
  refine ⟨hA, hB, hC, ?_, ?_⟩
  · intro cid c hc
    have hmem : (cid, c) ∈ s.clients := mapGet_some_mem hc
    have := List.all_eq_true.mp hDb _ hmem
    simp only [bne_iff_ne, ne_eq] at this
    exact this
  · intro cid e
    constructor
    · intro hmem
      unfold watchers lookupSubs at hmem
      cases hget : mapGet s.eventSubscriptions e with
      | none =>
        rw [hget] at hmem
        cases hmem
      | some ws =>
        rw [hget] at hmem
        simp only [Option.getD_some] at hmem
        have hent := mapGet_some_mem hget
        have h1 := List.all_eq_true.mp hfwd _ hent
        have h2 := List.all_eq_true.mp h1 _ hmem
        cases hcl : mapGet s.clients cid with
        | none =>
          rw [hcl] at h2
          cases h2
        | some c =>
          rw [hcl] at h2
          refine ⟨c, hcl, ?_⟩
          exact eq_of_beq h2
    · rintro ⟨c, hc, he⟩
      have hmem : (cid, c) ∈ s.clients := mapGet_some_mem hc
      have h1 := List.all_eq_true.mp hrev _ hmem
      rw [show ((cid, c).2.eventId) = c.eventId from rfl, he] at h1
      obtain ⟨z, hz, hzb⟩ := List.any_eq_true.mp h1
      have : z = cid := eq_of_beq hzb
      exact this ▸ hz

/-! ## The registry consistency claim -/

/-- C5 counterexample: four operation sequences reachable through the
public entry points leave the two maps inconsistent: a mismatched
unsubscribe clears the record but not the watcher-set membership; a
subscription to the falsy event id 0 followed by another subscription leaks
the old membership; addClient with a record already pointing at an event
registers no membership; re-adding an existing id resets the record while
its membership remains. -/
theorem C5_counterexample :
    (¬(("c1" ∈ watchers wsDesynced 1) ↔
      ∃ c, lookupClient wsDesynced "c1" = some c ∧ c.eventId = some 1)) ∧
    ("c1" ∈ watchers (applyWSOps wsEmpty
        [WSOp.add "c1" 0 none false, WSOp.sub "c1" 0, WSOp.sub "c1" 5]) 0 ∧
      lookupClient (applyWSOps wsEmpty
        [WSOp.add "c1" 0 none false, WSOp.sub "c1" 0, WSOp.sub "c1" 5]) "c1"
        = some ⟨0, some 5, false⟩) ∧
    (lookupClient (applyWSOps wsEmpty [WSOp.add "c1" 0 (some 3) false]) "c1"
        = some ⟨0, some 3, false⟩ ∧
      "c1" ∉ watchers (applyWSOps wsEmpty [WSOp.add "c1" 0 (some 3) false]) 3) ∧
    ("c1" ∈ watchers (applyWSOps wsEmpty
        [WSOp.add "c1" 0 none false, WSOp.sub "c1" 1, WSOp.add "c1" 0 none false]) 1 ∧
      lookupClient (applyWSOps wsEmpty
        [WSOp.add "c1" 0 none false, WSOp.sub "c1" 1, WSOp.add "c1" 0 none false]) "c1"
        = some ⟨0, none, false⟩) := by
  refine ⟨?_, by decide, by decide, by decide⟩
  intro h
  obtain ⟨c, hc, he⟩ := h.mp (by decide)
  have h2 := hc.symm.trans
    (show lookupClient wsDesynced "c1" = some ⟨7, none, true⟩ from by decide)
  have h3 := Option.some.inj h2
  subst h3
  simp at he

/-- C5 (amended): after every sequence of registry operations in which
addClient registers a fresh connection id with no watched event (as both
connection-open handlers do), every subscription names a nonzero event id
(database serial ids start at 1), and every unsubscription names the event
the connection currently watches, the two maps are consistent: a connection
id belongs to an event's watcher set exactly when its record exists and
watches that event, and no connection belongs to the watcher sets of two
different events.  Without those provisos the consistency fails. -/
theorem C5_registry_consistency (s : WSState) (ops : List WSOp)
    (h : WSInv s) (hg : GoodSeq s ops) :
    (∀ cid e, cid ∈ watchers (applyWSOps s ops) e ↔
      ∃ c, lookupClient (applyWSOps s ops) cid = some c ∧ c.eventId = some e) ∧
    (∀ cid e1 e2, cid ∈ watchers (applyWSOps s ops) e1 →
      cid ∈ watchers (applyWSOps s ops) e2 → e1 = e2) := by
  obtain ⟨-, -, -, -, hE⟩ := WSInv_applyWSOps s ops h hg
  refine ⟨hE, ?_⟩
  intro cid e1 e2 h1 h2
  obtain ⟨c1, hc1, he1⟩ := (hE cid e1).mp h1
  obtain ⟨c2, hc2, he2⟩ := (hE cid e2).mp h2
  rw [hc1] at hc2
  have hcc := Option.some.inj hc2
  rw [← hcc] at he2
  rw [he1] at he2
  exact Option.some.inj he2

/-- Witness for C5 (amended): a concrete disciplined session of connect,
subscribe, matched unsubscribe, disconnect and a broadcast. -/
theorem C5_registry_consistency_witness :
    (∀ cid e, cid ∈ watchers (applyWSOps wsEmpty
        [WSOp.add "c1" 7 none false, WSOp.sub "c1" 1, WSOp.unsub "c1" 1,
         WSOp.remove "c1", WSOp.bcast 1 "m"]) e ↔
      ∃ c, lookupClient (applyWSOps wsEmpty
        [WSOp.add "c1" 7 none false, WSOp.sub "c1" 1, WSOp.unsub "c1" 1,
         WSOp.remove "c1", WSOp.bcast 1 "m"]) cid = some c ∧ c.eventId = some e) ∧
    (∀ cid e1 e2, cid ∈ watchers (applyWSOps wsEmpty
        [WSOp.add "c1" 7 none false, WSOp.sub "c1" 1, WSOp.unsub "c1" 1,
         WSOp.remove "c1", WSOp.bcast 1 "m"]) e1 →
      cid ∈ watchers (applyWSOps wsEmpty
        [WSOp.add "c1" 7 none false, WSOp.sub "c1" 1, WSOp.unsub "c1" 1,
         WSOp.remove "c1", WSOp.bcast 1 "m"]) e2 → e1 = e2) := by
  refine C5_registry_consistency wsEmpty _ WSInv_empty ?_
  refine ⟨⟨rfl, rfl⟩, ?_, ?_, trivial, trivial, trivial⟩
  · exact Nat.one_ne_zero
  · intro c hc
    have h2 := hc.symm.trans
      (by decide :
        lookupClient (applyWSOp (applyWSOp wsEmpty (WSOp.add "c1" 7 none false))
          (WSOp.sub "c1" 1)) "c1" = some ⟨7, some 1, false⟩)
    have h3 := Option.some.inj h2
    rw [h3]
    exact Or.inr rfl

/-! ## Cleanup on failed delivery -/

/-- C6 counterexample: from the wire-reachable desynchronized state (add,
subscribe, mismatched unsubscribe), a broadcast whose send to c1 throws
removes c1 from the client registry but c1 still appears in the watcher set
of event 1 after the call. -/
theorem C6_counterexample :
    lookupClient wsDesynced "c1" = some ⟨7, none, true⟩ ∧
    "c1" ∈ watchers wsDesynced 1 ∧
    (broadcastToEvent wsDesynced 1 "m").delivered = [] ∧
    lookupClient (broadcastToEvent wsDesynced 1 "m").state "c1" = none ∧
    "c1" ∈ watchers (broadcastToEvent wsDesynced 1 "m").state 1 := by
  decide

/-- C6 (amended): in a consistent registry state, if the send to a watcher
of the broadcast event throws, then after the call that connection appears
in no event's watcher set and has no client record, any later broadcast
attempts no delivery to it, the remaining watchers whose send succeeds
still receive the message, and the call returns normally (undefined), so
the failure is not escalated to the caller.  In desynchronized states (see
the C5 counterexample) the watcher-set part can fail. -/
theorem C6_cleanup_on_failed_send (s : WSState) (cid : String) (c : WSClient)
    (eid : Nat) (msg : String) (hInv : WSInv s)
    (hc : lookupClient s cid = some c) (hfail : c.sendFails = true)
    (hw : cid ∈ watchers s eid) :
    (∀ e', cid ∉ watchers (broadcastToEvent s eid msg).state e') ∧
    lookupClient (broadcastToEvent s eid msg).state cid = none ∧
    (∀ eid' msg', cid ∉
      (broadcastToEvent (broadcastToEvent s eid msg).state eid' msg').attempted) ∧
    (∀ cid' c', cid' ∈ watchers s eid → cid' ≠ cid → lookupClient s cid' = some c' →
      c'.sendFails = false → cid' ∈ (broadcastToEvent s eid msg).delivered) ∧
    (broadcastToEvent s eid msg).retVal = none := by
  obtain ⟨hA, hB, hC, hD, hE⟩ := hInv
  obtain ⟨c0, hc0, he0⟩ := (hE cid eid).mp hw
  rw [hc] at hc0
  have hcc := Option.some.inj hc0
  rw [← hcc] at he0
  have h0 : eid ≠ 0 := by
    intro hz
    subst hz
    exact hD cid c hc he0
  have hwatch : ∀ e', cid ∈ watchers s e' → e' = eid := by
    intro e' hmem
    obtain ⟨c1, hc1, he1⟩ := (hE cid e').mp hmem
    rw [hc] at hc1
    have := Option.some.inj hc1
    rw [← this] at he1
    rw [he0] at he1
    exact (Option.some.inj he1).symm
  cases hget : lookupSubs s eid with
  | none =>
    exfalso
    unfold watchers at hw
    rw [hget] at hw
    cases hw
  | some wl =>
    have hm : cid ∈ wl := by
      unfold watchers at hw
      rw [hget] at hw
      exact hw
    have heq : broadcastToEvent s eid msg
        = ⟨(wl.foldl broadcastStep ⟨s, [], [], 0⟩).state,
           (wl.foldl broadcastStep ⟨s, [], [], 0⟩).attempted,
           (wl.foldl broadcastStep ⟨s, [], [], 0⟩).delivered,
           (wl.foldl broadcastStep ⟨s, [], [], 0⟩).sentCount, none⟩ := by
      unfold broadcastToEvent
      rw [hget]
    obtain ⟨hlook, hnw⟩ := bfold_removes wl ⟨s, [], [], 0⟩ cid c eid hm hc hfail he0 h0 hwatch
    refine ⟨?_, ?_, ?_, ?_, ?_⟩
    · intro e' hmem
      rw [heq] at hmem
      exact hnw e' hmem
    · rw [heq]
      exact hlook
    · intro eid' msg'
      rw [heq]
      cases hget' : lookupSubs (wl.foldl broadcastStep ⟨s, [], [], 0⟩).state eid' with
      | none =>
        unfold broadcastToEvent
        rw [hget']
        intro hx
        cases hx
      | some wl' =>
        unfold broadcastToEvent
        rw [hget']
        dsimp only
        exact bfold_attempted_none wl' _ cid hlook (fun hx => by cases hx)
    · intro cid' c' hm' hne hr' hok
      rw [heq]
      dsimp only
      have hm'' : cid' ∈ wl := by
        unfold watchers at hm'
        rw [hget] at hm'
        exact hm'
      exact bfold_delivers wl ⟨s, [], [], 0⟩ hm'' hr' hok
    · rw [heq]

/-- Witness for C6 (amended): a two-watcher event where the first watcher's
send always fails; after the broadcast the failed watcher is fully cleaned
up, a second broadcast does not attempt it, and the other watcher received
the message. -/
theorem C6_cleanup_on_failed_send_witness :
    ("c1" ∉ watchers (broadcastToEvent wsOneFail 1 "m").state 1) ∧
    lookupClient (broadcastToEvent wsOneFail 1 "m").state "c1" = none ∧
    ("c1" ∉ (broadcastToEvent (broadcastToEvent wsOneFail 1 "m").state 1 "m2").attempted) ∧
    ("c2" ∈ (broadcastToEvent wsOneFail 1 "m").delivered) ∧
    (broadcastToEvent wsOneFail 1 "m").retVal = none := by
  have hInv : WSInv wsOneFail :=
    WSInv_of_checks wsOneFail (by decide) (by decide) (by decide) (by decide)
      (by decide) (by decide)
  have H := C6_cleanup_on_failed_send wsOneFail "c1" ⟨7, some 1, true⟩ 1 "m" hInv
    (by decide) (by decide) (by decide)
  exact ⟨H.1 1, H.2.1, H.2.2.1 1 "m2",
    H.2.2.2.1 "c2" ⟨8, some 1, false⟩ (by decide) (by decide) (by decide) (by decide),
    H.2.2.2.2⟩

/-! ## Broadcast targeting and return value -/

/-- C4 counterexample: a broadcast that successfully delivers to one
watcher computes sentCount 1, but the call returns undefined (the source
function's return type is void and sentCount is only logged), so the call
does not return the number of successful deliveries. -/
theorem C4_counterexample :
    (broadcastToEvent wsOneWatcher 1 "m").delivered = ["c1"] ∧
    (broadcastToEvent wsOneWatcher 1 "m").sentCount = 1 ∧
    (broadcastToEvent wsOneWatcher 1 "m").retVal = none ∧
    (broadcastToEvent wsOneWatcher 1 "m").retVal
      ≠ some (broadcastToEvent wsOneWatcher 1 "m").sentCount := by
  decide

/-- C4 (amended): a broadcast for an event attempts delivery exactly to the
connections in that event's current watcher set that still have a client
record; a connection outside the watcher set (one watching only another
event, or one that left the set by unsubscribing or switching) is neither
attempted nor delivered; the internally counted sentCount equals the number
of successful deliveries but is only logged: the call returns undefined. -/
theorem C4_broadcast_targets (s : WSState) (eid : Nat) (msg : String) :
    (∀ x, x ∈ (broadcastToEvent s eid msg).attempted → x ∈ watchers s eid) ∧
    (∀ x, x ∈ (broadcastToEvent s eid msg).delivered → x ∈ watchers s eid) ∧
    (∀ x c, x ∈ watchers s eid → lookupClient s x = some c →
      x ∈ (broadcastToEvent s eid msg).attempted) ∧
    (∀ x, x ∉ watchers s eid →
      x ∉ (broadcastToEvent s eid msg).attempted ∧
      x ∉ (broadcastToEvent s eid msg).delivered) ∧
    (broadcastToEvent s eid msg).retVal = none ∧
    (broadcastToEvent s eid msg).sentCount
      = (broadcastToEvent s eid msg).delivered.length := by
  cases hget : lookupSubs s eid with
  | none =>
    have heq : broadcastToEvent s eid msg = ⟨s, [], [], 0, none⟩ := by
      unfold broadcastToEvent
      rw [hget]
    rw [heq]
    refine ⟨?_, ?_, ?_, ?_, rfl, rfl⟩
    · intro x hx
      cases hx
    · intro x hx
      cases hx
    · intro x c hx _
      exfalso
      unfold watchers at hx
      rw [hget] at hx
      cases hx
    · intro x _
      exact ⟨List.not_mem_nil x, List.not_mem_nil x⟩
  | some wl =>
    have hwl : watchers s eid = wl := by
      unfold watchers
      rw [hget]
      rfl
    have heq : broadcastToEvent s eid msg
        = ⟨(wl.foldl broadcastStep ⟨s, [], [], 0⟩).state,
           (wl.foldl broadcastStep ⟨s, [], [], 0⟩).attempted,
           (wl.foldl broadcastStep ⟨s, [], [], 0⟩).delivered,
           (wl.foldl broadcastStep ⟨s, [], [], 0⟩).sentCount, none⟩ := by
      unfold broadcastToEvent
      rw [hget]
    rw [heq, hwl]
    refine ⟨?_, ?_, ?_, ?_, rfl, ?_⟩
    · intro x hx
      rcases bfold_attempted_sub wl ⟨s, [], [], 0⟩ x hx with h' | h'
      · cases h'
      · exact h'
    · intro x hx
      rcases bfold_delivered_sub wl ⟨s, [], [], 0⟩ x hx with h' | h'
      · cases h'
      · exact h'
    · intro x c hx hr
      exact bfold_attempts wl ⟨s, [], [], 0⟩ hx hr
    · intro x hx
      constructor
      · intro hmem
        rcases bfold_attempted_sub wl ⟨s, [], [], 0⟩ x hmem with h' | h'
        · cases h'
        · exact hx h'
      · intro hmem
        rcases bfold_delivered_sub wl ⟨s, [], [], 0⟩ x hmem with h' | h'
        · cases h'
        · exact hx h'
    · exact bfold_count wl ⟨s, [], [], 0⟩ rfl

/-- Witness for C4 (amended) at a concrete one-watcher registry. -/
theorem C4_broadcast_targets_witness :
    ("c1" ∈ (broadcastToEvent wsOneWatcher 1 "m").attempted) ∧
    ("c9" ∉ (broadcastToEvent wsOneWatcher 1 "m").delivered) ∧
    (broadcastToEvent wsOneWatcher 1 "m").retVal = none ∧
    (broadcastToEvent wsOneWatcher 1 "m").sentCount
      = (broadcastToEvent wsOneWatcher 1 "m").delivered.length :=
  ⟨(C4_broadcast_targets wsOneWatcher 1 "m").2.2.1 "c1" ⟨7, some 1, false⟩
      (by decide) (by decide),
   ((C4_broadcast_targets wsOneWatcher 1 "m").2.2.2.1 "c9" (by decide)).2,
   (C4_broadcast_targets wsOneWatcher 1 "m").2.2.2.2.1,
   (C4_broadcast_targets wsOneWatcher 1 "m").2.2.2.2.2⟩

/-! ## The booking_created broadcast message -/

/-- C8: the booking_created message built by the createBooking call site
carries the post-operation seat count in the bookingId field and undefined
in the userId and availableSeats fields, because the call site passes two
arguments to the four-parameter broadcastBookingCreated (the runtime strips
types without checking); a four-argument call would carry the seat count in
availableSeats, as the message interface declares. -/
theorem C8_message_missing_fields :
    (bookingCreatedCallSite 7 4 "ts").type = "booking_created" ∧
    (bookingCreatedCallSite 7 4 "ts").eventId = JSVal.num 7 ∧
    (bookingCreatedCallSite 7 4 "ts").bookingId = JSVal.num 4 ∧
    (bookingCreatedCallSite 7 4 "ts").userId = JSVal.undef ∧
    (bookingCreatedCallSite 7 4 "ts").availableSeats = JSVal.undef ∧
    (bookingCreatedCallSite 7 4 "ts").availableSeats ≠ JSVal.num 4 ∧
    (bookingCreatedCallSite 7 4 "ts").timestamp = "ts" ∧
    broadcastBookingCreatedMsg (JSVal.num 7) (JSVal.str "BK-X") (JSVal.num 1)
        (JSVal.num 4) "ts"
      = ⟨"booking_created", JSVal.num 7, JSVal.str "BK-X", JSVal.num 1,
         JSVal.num 4, "ts"⟩ := by
  decide

end EBS
